import Mathlib

/-!
Verification development for the AponiaJS authentication core.

The definitions below are a shallow embedding of the TypeScript sources:
* `src/unnamed/part_000` — `TokenSessionManager` (session/token lifecycle),
  a legacy `SessionManager`, and the JWT codec (`encode`/`decode` built on
  jose's `EncryptJWT`/`jwtDecrypt`);
* `src/packages/core/src/providers/oidc.ts` — `OIDCProvider`, `OAuthProvider`
  and `mergeOAuthOptions`.

Modelling conventions:
* JavaScript values that flow through truthiness tests (`if (!x)`, `x ? a : b`,
  `a && b`) are modelled by `JSValue` together with `truthy`; `undefined`/`null`
  of optional positions are modelled by `Option`.
* `async` functions that can reject are modelled in `Except`; a `.error` result
  is a thrown (rejected) error, a `.ok` result is a normal return.
* Cookie serialize options other than `maxAge` (path, httpOnly, sameSite,
  secure, domain) are never inspected by the code under study and are elided
  from `CookieSerializeOpts`.
* A response whose `cookies` field is absent is identified with one whose
  cookie list is empty (the code only ever does `cookies ??= []` before use).
* URLs are modelled structurally as a base plus an ordered query-parameter
  list; `URLSearchParams.set` replaces the first binding of the key in place,
  drops any further bindings of it, and appends when the key is absent.
-/

/-- Model of a JavaScript runtime value, for positions where the source code
branches on JS truthiness. -/
inductive JSValue where
  | undefined
  | null
  | bool (b : Bool)
  | num (n : Int)
  | str (s : String)
  | obj (tag : Nat)
  deriving Repr, DecidableEq

/-- JavaScript truthiness of a `JSValue` (objects are always truthy; `0`, `""`,
`false`, `null` and `undefined` are falsy). -/
def truthy : JSValue → Bool
  | .undefined => false
  | .null => false
  | .bool b => b
  | .num n => n != 0
  | .str s => s ≠ ""
  | .obj _ => true

/-- Truthiness of an optional JS value (`undefined`/`null` are falsy). -/
def optTruthy (v : Option JSValue) : Bool :=
  (v.map truthy).getD false

/-- Truthiness of an optional string (a missing string and the empty string
are falsy, any other string is truthy). -/
def strTruthy : Option String → Bool
  | none => false
  | some s => s ≠ ""

/-- First binding of a key in an association list (model of reading a plain
JS object / parsed cookie record / `URLSearchParams.get`). -/
def lookupStr : List (String × String) → String → Option String
  | [], _ => none
  | (k, v) :: rest, key => if k = key then some v else lookupStr rest key

/-- Cookie serialize options; only `maxAge` is ever read or written by the
code under study (a `maxAge` of `0` is a clearing instruction). -/
structure CookieSerializeOpts where
  maxAge : Option Int := none
  deriving Repr, DecidableEq

/-- Internally generated cookie (src/packages/core/src/lib/integrations/response.ts). -/
structure Cookie where
  name : String
  value : String
  options : CookieSerializeOpts := {}
  deriving Repr, DecidableEq

/-- Structural model of a WHATWG `URL`: a base (scheme/host/path) plus the
ordered query parameters. -/
structure Url where
  base : String
  params : List (String × String) := []
  deriving Repr, DecidableEq

/-- Drop every binding of a key from a parameter list. -/
def removeKey : List (String × String) → String → List (String × String)
  | [], _ => []
  | (k0, v0) :: rest, k =>
    if k0 = k then removeKey rest k else (k0, v0) :: removeKey rest k

/-- Model of `URLSearchParams.set` on the parameter list: replace the first
binding of the key in place (dropping later duplicates), append if absent. -/
def setParamList : List (String × String) → String → String → List (String × String)
  | [], k, v => [(k, v)]
  | (k0, v0) :: rest, k, v =>
    if k0 = k then (k, v) :: removeKey rest k
    else (k0, v0) :: setParamList rest k v

/-- `url.searchParams.set(k, v)`. -/
def Url.set (u : Url) (k v : String) : Url :=
  ⟨u.base, setParamList u.params k v⟩

/-- `url.searchParams.get(k)`. -/
def Url.get (u : Url) (k : String) : Option String :=
  lookupStr u.params k

/-- `url.searchParams.has(k)`. -/
def Url.hasP (u : Url) (k : String) : Bool :=
  (u.get k).isSome

/-- Internal canonical request: origin of `request.url`, its query
parameters, and the parsed cookie record. -/
structure InternalRequest where
  origin : String := ""
  query : List (String × String) := []
  cookies : List (String × String) := []
  deriving Repr, DecidableEq

/-- Internal canonical response (src internal/response): status, redirect
target, ordered cookie-set instructions, and the optional authenticated
user / session payload.  The redirect target is kept structurally as a `Url`
so that its query parameters remain inspectable. -/
structure InternalResponse where
  status : Option Nat := none
  redirect : Option Url := none
  cookies : List Cookie := []
  user : Option JSValue := none
  session : Option JSValue := none
  body : Option JSValue := none
  deriving Repr, DecidableEq

/-- Model of a thrown JavaScript error / rejected promise in application code. -/
inductive JsError where
  | err (tag : String)
  deriving Repr, DecidableEq

namespace Jwt

/-- Errors thrown by jose's `jwtDecrypt` (JWE parse failure, authentication
failure of the AEAD tag, expiry). -/
inductive JoseError where
  | invalidCompactJWE
  | decryptionFailed
  | expired
  deriving Repr, DecidableEq

/-- Split a character list at every `'.'` (model of `token.split('.')` for
compact JWE serialization). -/
def splitDots : List Char → List (List Char)
  | [] => [[]]
  | c :: rest =>
    if c = '.' then [] :: splitDots rest
    else
      match splitDots rest with
      | [] => [[c]]
      | p :: ps => (c :: p) :: ps

/-- Keyed checksum standing in for the A256GCM authentication tag: any
change to the payload (or the secret) changes the tag. -/
def chk (secret payload : List Char) : Nat :=
  ((secret ++ payload).foldl (fun a c => 31 * a + c.toNat + 1) 7) % 1000003

/-- Decimal digit characters. -/
def digitChar : Nat → Char
  | 0 => '0'
  | 1 => '1'
  | 2 => '2'
  | 3 => '3'
  | 4 => '4'
  | 5 => '5'
  | 6 => '6'
  | 7 => '7'
  | 8 => '8'
  | _ => '9'

/-- Big-endian decimal digits of `n`, with explicit recursion fuel. -/
def digitsCore : Nat → Nat → List Char
  | 0, _ => []
  | _ + 1, 0 => []
  | fuel + 1, n + 1 => digitsCore fuel ((n + 1) / 10) ++ [digitChar ((n + 1) % 10)]

/-- Decimal rendering of the model authentication tag (`chk < 10^7`, so 8
digits of fuel always suffice). -/
def tagOf (secret payload : List Char) : List Char :=
  digitsCore 8 (chk secret payload)

/-- Modelled from the spec: jose's `EncryptJWT` as used by `encode` in
`src/unnamed/part_000` — the Token Codec's encode side.  The token is an
authenticated opaque string: header parts, the payload, and an
authentication tag bound to the payload and the (derived) secret. -/
def encodeJwtModel (secret payload : String) : String :=
  String.mk (['h', '.', 'k', '.', 'i', '.'] ++ payload.data ++ '.' :: tagOf secret.data payload.data)

/-- Modelled from the spec: jose's `jwtDecrypt` (the `jose` package is an
external collaborator, not under `src/`).  Per its documented behaviour it
returns the payload of a well-formed token whose authentication tag
verifies under the secret, and THROWS (`Except.error`) on any malformed or
tampered token — it never returns `null`. -/
def joseJwtDecrypt (secret : String) (token : String) : Except JoseError JSValue :=
  match splitDots token.data with
  | [_, _, _, ct, tag] =>
    if tag = tagOf secret.data ct then .ok (.str (String.mk ct))
    else .error .decryptionFailed
  | _ => .error .invalidCompactJWE

/-- `decode` from `src/unnamed/part_000` (src/security/jwt): returns `null`
when the token is `null`/`undefined`, otherwise derives the key and calls
`jwtDecrypt` with NO try/catch — any error thrown by `jwtDecrypt`
propagates to the caller.  The behaviour of `jwtDecrypt` itself is a
parameter (`jwtDecrypt`), instantiated with `joseJwtDecrypt` for the
default codec. -/
def decode (jwtDecrypt : String → Except JoseError JSValue) (token : Option String) :
    Except JoseError (Option JSValue) :=
  match token with
  | none => .ok none
  | some t => (jwtDecrypt t).map some

end Jwt

/-- `JWTEncodeParams` of src/security/jwt as used by the session manager. -/
structure JWTEncodeParams where
  secret : String
  maxAge : Nat
  token : JSValue
  deriving Repr, DecidableEq

/-- `JWTDecodeParams` of src/security/jwt. -/
structure JWTDecodeParams where
  secret : String
  token : Option String
  deriving Repr, DecidableEq

/-- One cookie's configuration (name plus serialize options) inside the
cookies-options record. -/
structure SessionCookieCfg where
  name : String
  options : CookieSerializeOpts := {}
  deriving Repr, DecidableEq

/-- The `accessToken`/`refreshToken` entries of `CookiesOptions` as used by
`TokenSessionManager` (the cookie-policy module itself is configuration
data; only the two names and base options are read). -/
structure SessionCookiesOptions where
  accessToken : SessionCookieCfg
  refreshToken : SessionCookieCfg
  deriving Repr, DecidableEq

/-- `{ accessToken: TSession, refreshToken?: TRefresh }` — a new session as
produced by the application's `createSession`/`refreshSession` callbacks.
An absent `refreshToken` is `JSValue.undefined`. -/
structure NewSession where
  accessToken : JSValue
  refreshToken : JSValue := .undefined
  deriving Repr, DecidableEq

/-- `TokenSessionManager` of `src/unnamed/part_000`: configuration captured
by the constructor.  `encode`/`decode` are the injected or default codec
(`config.jwt?.encode ?? encode`, `config.jwt?.decode ?? decode`); the
callbacks may reject, which is modelled by `Except`. -/
structure TokenSessionManager where
  secret : String
  accessMaxAge : Nat
  refreshMaxAge : Nat
  cookies : SessionCookiesOptions
  encode : JWTEncodeParams → String
  decode : JWTDecodeParams → Except JsError (Option JSValue)
  createSession : JSValue → Except JsError (Option NewSession)
  refreshSession : JSValue → Except JsError (Option NewSession)
  onInvalidateSession : Option (JSValue → Option JSValue → Except JsError (Option InternalResponse))

/-- `TokenSessionManager.createCookies`: pushes an access-token cookie when
`newSession?.accessToken` is truthy and a refresh-token cookie when
`newSession?.refreshToken` is truthy, each valued with the encoded token
and carrying `maxAge` over the base cookie options. -/
def TokenSessionManager.createCookies (M : TokenSessionManager)
    (newSession : Option NewSession) : List Cookie :=
  (match newSession with
   | some s =>
     if truthy s.accessToken then
       [⟨M.cookies.accessToken.name,
         M.encode ⟨M.secret, M.accessMaxAge, s.accessToken⟩,
         {M.cookies.accessToken.options with maxAge := some (Int.ofNat M.accessMaxAge)}⟩]
     else []
   | none => []) ++
  (match newSession with
   | some s =>
     if truthy s.refreshToken then
       [⟨M.cookies.refreshToken.name,
         M.encode ⟨M.secret, M.refreshMaxAge, s.refreshToken⟩,
         {M.cookies.refreshToken.options with maxAge := some (Int.ofNat M.refreshMaxAge)}⟩]
     else []
   | none => [])

/-- `TokenSessionManager.handleRequest`: reads both cookies, always decodes
the refresh cookie, and when the access cookie is falsy, the refresh cookie
truthy and the decoded refresh payload truthy, invokes `refreshSession` and
returns its cookies; otherwise returns the empty response. -/
def TokenSessionManager.handleRequest (M : TokenSessionManager)
    (request : InternalRequest) : Except JsError InternalResponse :=
  (M.decode ⟨M.secret, lookupStr request.cookies M.cookies.refreshToken.name⟩).bind fun refresh =>
    match refresh with
    | some r =>
      if !strTruthy (lookupStr request.cookies M.cookies.accessToken.name)
          && strTruthy (lookupStr request.cookies M.cookies.refreshToken.name)
          && truthy r then
        (M.refreshSession r).map fun newSession => { cookies := M.createCookies newSession }
      else .ok {}
    | none => .ok {}

/-- `TokenSessionManager.handleResponse`: a response with a falsy `user` is
returned unchanged; otherwise `createSession` is invoked and its cookies are
pushed onto the end of the response's cookie list. -/
def TokenSessionManager.handleResponse (M : TokenSessionManager)
    (response : InternalResponse) : Except JsError InternalResponse :=
  match response.user with
  | some u =>
    if truthy u then
      (M.createSession u).map fun newSession =>
        {response with cookies := response.cookies ++ M.createCookies newSession}
    else .ok response
  | none => .ok response

/-- The clearing cookie pushed by `logout` for one cookie configuration:
empty value and `maxAge: 0` over the base options. -/
def clearCookie (cfg : SessionCookieCfg) : Cookie :=
  ⟨cfg.name, "", {cfg.options with maxAge := some 0}⟩

/-- `TokenSessionManager.logout`: decodes both cookies (no try/catch — a
decoder rejection propagates), invokes the optional invalidation hook when a
truthy session was decoded (again without try/catch), then pushes the two
clearing cookies onto the end of the response's cookie list. -/
def TokenSessionManager.logout (M : TokenSessionManager)
    (request : InternalRequest) : Except JsError InternalResponse :=
  (M.decode ⟨M.secret, lookupStr request.cookies M.cookies.accessToken.name⟩).bind fun session =>
    (M.decode ⟨M.secret, lookupStr request.cookies M.cookies.refreshToken.name⟩).bind fun refresh =>
      (match session with
       | some s =>
         if truthy s then
           match M.onInvalidateSession with
           | some hook => (hook s refresh).map fun (r : Option InternalResponse) => r.getD {}
           | none => .ok {}
         else .ok {}
       | none => .ok {}).map fun (response : InternalResponse) =>
        {response with cookies := response.cookies ++
          [clearCookie M.cookies.accessToken, clearCookie M.cookies.refreshToken]}

/-- `TokenSessionManager.getUser`: decodes the access cookie alone; a falsy
access cookie yields `null` without calling the decoder. -/
def TokenSessionManager.getUser (M : TokenSessionManager)
    (request : InternalRequest) : Except JsError (Option JSValue) :=
  let accessToken := lookupStr request.cookies M.cookies.accessToken.name
  if !strTruthy accessToken then .ok none
  else M.decode ⟨M.secret, accessToken⟩

/-- The OAuth checks (`OAuthCheck` in oidc.ts): `'pkce' | 'state' | 'none' | 'nonce'`. -/
inductive Check where
  | pkce
  | state
  | nonce
  | noCheck
  deriving Repr, DecidableEq

/-- Errors thrown inside the login/callback flow engines: check validation
failures, OAuth protocol errors surfaced by the authorization-server client,
and the explicit `throw new Error(...)` sites of `callback`. -/
inductive AuthError where
  | validationState
  | validationPkce
  | validationNonce
  | oauthError (description : String)
  | stateMismatchErr
  | missingCode
  | wwwAuthenticate
  | oauthBodyError
  | oidcBodyError
  | missingProfile
  | initFailed (tag : String)
  deriving Repr, DecidableEq

/-- The slice of a provider read by the checks subsystem: enabled checks,
JWT secret, and the three check-cookie names. -/
structure ProviderCheckCtx where
  checks : List Check
  secret : String
  stateCookieName : String
  pkceCookieName : String
  nonceCookieName : String
  deriving Repr, DecidableEq

/-- The external cryptographic collaborators used by the checks subsystem:
the Token Codec's encode/decode for check cookies and the S256 code-challenge
digest.  Kept as explicit data so every theorem quantifies over them. -/
structure Crypto where
  encodeToken : String → String → String
  decodeToken : String → String → Option String
  s256 : String → String

/-- The fresh random values drawn during one `login`: the state value, the
PKCE code verifier, and the nonce value. -/
structure CheckEntropy where
  stateValue : String
  pkceVerifier : String
  nonceValue : String
  deriving Repr, DecidableEq

/-- A clearing instruction for a check cookie (empty value, `maxAge: 0`). -/
def clearingCookie (name : String) : Cookie :=
  ⟨name, "", {maxAge := some 0}⟩

namespace checks

/-- Modelled from the spec: `checks.state.create` (src/security/checks is
not under src/).  Generates a random opaque value and stores it, encoded via
the Token Codec, in the dedicated state cookie. -/
def state.create (C : Crypto) (E : CheckEntropy) (P : ProviderCheckCtx) : String × Cookie :=
  (E.stateValue, ⟨P.stateCookieName, C.encodeToken P.secret E.stateValue, {}⟩)

/-- Modelled from the spec: `checks.state.use` (src/security/checks is not
under src/).  When the state check is enabled it reads the state cookie and
decodes it, failing with a ValidationError when the cookie is missing or
does not decode, and otherwise returns the decoded value together with a
clearing cookie; when the check is not enabled it returns nothing. -/
def state.use (C : Crypto) (P : ProviderCheckCtx) (request : InternalRequest) :
    Except AuthError (Option String × Option Cookie) :=
  if Check.state ∈ P.checks then
    match lookupStr request.cookies P.stateCookieName with
    | none => .error .validationState
    | some raw =>
      match C.decodeToken P.secret raw with
      | none => .error .validationState
      | some v => .ok (some v, some (clearingCookie P.stateCookieName))
  else .ok (none, none)

/-- Modelled from the spec: `checks.pkce.create`.  Generates a code verifier,
stores the verifier (encoded) in the PKCE cookie, and returns the S256
challenge of the verifier. -/
def pkce.create (C : Crypto) (E : CheckEntropy) (P : ProviderCheckCtx) : String × Cookie :=
  (C.s256 E.pkceVerifier, ⟨P.pkceCookieName, C.encodeToken P.secret E.pkceVerifier, {}⟩)

/-- Modelled from the spec: `checks.pkce.use`.  When the PKCE check is
enabled it reads and decodes the verifier cookie (ValidationError when
missing or undecodable) and returns the verifier with a clearing cookie. -/
def pkce.use (C : Crypto) (P : ProviderCheckCtx) (request : InternalRequest) :
    Except AuthError (Option String × Option Cookie) :=
  if Check.pkce ∈ P.checks then
    match lookupStr request.cookies P.pkceCookieName with
    | none => .error .validationPkce
    | some raw =>
      match C.decodeToken P.secret raw with
      | none => .error .validationPkce
      | some v => .ok (some v, some (clearingCookie P.pkceCookieName))
  else .ok (none, none)

/-- Modelled from the spec: `checks.nonce.create`.  Created like state. -/
def nonce.create (C : Crypto) (E : CheckEntropy) (P : ProviderCheckCtx) : String × Cookie :=
  (E.nonceValue, ⟨P.nonceCookieName, C.encodeToken P.secret E.nonceValue, {}⟩)

/-- Modelled from the spec: `checks.nonce.use`.  Used like state, except the
decoded value is later compared against the ID token's nonce claim. -/
def nonce.use (C : Crypto) (P : ProviderCheckCtx) (request : InternalRequest) :
    Except AuthError (Option String × Option Cookie) :=
  if Check.nonce ∈ P.checks then
    match lookupStr request.cookies P.nonceCookieName with
    | none => .error .validationNonce
    | some raw =>
      match C.decodeToken P.secret raw with
      | none => .error .validationNonce
      | some v => .ok (some v, some (clearingCookie P.nonceCookieName))
  else .ok (none, none)

end checks

/-- The code-grant parameters extracted from a valid callback. -/
structure CodeGrant where
  code : String
  deriving Repr, DecidableEq

/-- Modelled from the spec: `oauth.validateAuthResponse` of the
authorization-server client (oauth4webapi, an external collaborator).
It detects an OAuth2 error response (`error` query parameter), and
validates the callback's `state` query parameter against the expected
state: the two must both be absent or both present and equal; otherwise
the flow aborts.  On success it extracts the authorization `code`. -/
def validateAuthResponse (expectedState : Option String)
    (query : List (String × String)) : Except AuthError CodeGrant :=
  match lookupStr query "error" with
  | some description => .error (.oauthError description)
  | none =>
    if lookupStr query "state" = expectedState then
      match lookupStr query "code" with
      | some c => .ok ⟨c⟩
      | none => .error .missingCode
    else .error .stateMismatchErr

/-- Opaque model of an HTTP `Response` returned by the token endpoint. -/
structure HttpResp where
  tag : Nat := 0
  deriving Repr, DecidableEq

/-- The token set produced by processing the token-endpoint response. -/
structure TokenSet where
  accessToken : Option String := none
  tag : Nat := 0
  deriving Repr, DecidableEq

/-- Interaction events of one `callback` run, in order: which collaborators
were reached.  `tokenExchanged` is recorded exactly when the
token-exchange request (`oauth.authorizationCodeGrantRequest`) is made. -/
inductive Ev where
  | initCalled
  | stateUsed
  | stateClearCollected
  | pkceUsed
  | tokenExchanged
  | nonceUsed
  | userinfoFetched
  | onAuthCalled
  deriving Repr, DecidableEq

/-- Pages of an OAuth provider (`login`, `callback`). -/
structure OAuthPages where
  login : String := ""
  callback : String := ""
  deriving Repr, DecidableEq

/-- The authorization endpoint descriptor: URL plus statically configured
parameters (`Record<string, unknown>`; only string values are applied). -/
structure OAuthEndpointCfg where
  url : Url
  params : List (String × JSValue) := []
  deriving Repr, DecidableEq

/-- `OAuthProvider` of oidc.ts (second segment): the configuration fields
read by `login`/`callback`.  `secret` is `jwt.secret`; the three cookie
names come from the provider's `cookies` options. -/
structure OAuthProvider where
  id : String := ""
  clientId : String := ""
  clientSecret : String := ""
  checks : List Check
  secret : String := ""
  stateCookieName : String := "state"
  pkceCookieName : String := "pkce"
  nonceCookieName : String := "nonce"
  pages : OAuthPages := {}
  authorizationEndpoint : OAuthEndpointCfg
  deriving Repr, DecidableEq

/-- The checks-subsystem view of an `OAuthProvider`. -/
def OAuthProvider.ctx (P : OAuthProvider) : ProviderCheckCtx :=
  ⟨P.checks, P.secret, P.stateCookieName, P.pkceCookieName, P.nonceCookieName⟩

/-- Apply the statically configured authorization parameters to the URL
(`Object.entries(params).forEach(... if typeof value === 'string' ...)`). -/
def applyParams (u : Url) : List (String × JSValue) → Url
  | [] => u
  | (k, .str v) :: rest => applyParams (u.set k v) rest
  | (_, _) :: rest => applyParams u rest

/-- The authorization URL after the static-parameter phase of `login`
(`new URL(this.endpoints.authorization.url)` plus the `forEach`). -/
def OAuthProvider.staticAuthUrl (P : OAuthProvider) : Url :=
  applyParams P.authorizationEndpoint.url P.authorizationEndpoint.params

/-- The authorization URL of `login` after the three check branches (the
source threads one `(url, cookies)` pair through the branches; since each
branch updates the URL and the cookie list independently, the URL thread is
translated separately here and the cookie thread in `checkCookies`). -/
def OAuthProvider.checkedAuthUrl (C : Crypto) (E : CheckEntropy) (P : OAuthProvider) : Url :=
  let u1 := if Check.state ∈ P.checks
    then P.staticAuthUrl.set "state" (checks.state.create C E P.ctx).1
    else P.staticAuthUrl
  let u2 := if Check.pkce ∈ P.checks
    then (u1.set "code_challenge" (checks.pkce.create C E P.ctx).1).set
      "code_challenge_method" "S256"
    else u1
  if Check.nonce ∈ P.checks
    then u2.set "nonce" (checks.nonce.create C E P.ctx).1
    else u2

/-- The check cookies collected by `login`, in branch order. -/
def OAuthProvider.checkCookies (C : Crypto) (E : CheckEntropy) (P : OAuthProvider) : List Cookie :=
  (if Check.state ∈ P.checks then [(checks.state.create C E P.ctx).2] else [])
  ++ (if Check.pkce ∈ P.checks then [(checks.pkce.create C E P.ctx).2] else [])
  ++ (if Check.nonce ∈ P.checks then [(checks.nonce.create C E P.ctx).2] else [])

/-- `OAuthProvider.login` (oidc.ts lines 471-505): builds the authorization
URL from the endpoint descriptor plus static parameters, appends the
parameters and cookies of each enabled check, sets `redirect_uri` to the
provider's callback page unless already present, and returns a 302 redirect
carrying the check cookies. -/
def OAuthProvider.login (C : Crypto) (E : CheckEntropy) (P : OAuthProvider)
    (request : InternalRequest) : InternalResponse :=
  let u := P.checkedAuthUrl C E
  let finalUrl := if u.hasP "redirect_uri" then u
    else u.set "redirect_uri" (request.origin ++ P.pages.callback)
  { status := some 302, redirect := some finalUrl, cookies := P.checkCookies C E }

/-- The redirect target of a response (`⟨"", []⟩` when absent). -/
def redirectUrl (r : InternalResponse) : Url :=
  r.redirect.getD ⟨"", []⟩

/-- The external collaborators reached by `OAuthProvider.callback`:
token exchange, the optional `token.conform` hook, WWW-Authenticate
challenge parsing, token-response processing, the optional configured
userinfo request, the default userinfo fetch, and the application's
`onAuth` hook. -/
structure OAuthOracles where
  tokenExchange : CodeGrant → String → Option String → HttpResp
  conform : Option (HttpResp → Option HttpResp) := none
  wwwAuthenticateChallenges : HttpResp → Option (List String) := fun _ => none
  processTokens : HttpResp → Except String TokenSet
  userinfoRequest : Option (TokenSet → Option JSValue) := none
  userInfoFetch : TokenSet → Option JSValue := fun _ => none
  onAuth : JSValue → InternalResponse

/-- `OAuthProvider.callback` (oidc.ts lines 510-572), with its interaction
trace.  The state check runs first; `oauth.validateAuthResponse` then
compares the decoded state with the callback's query parameters, and an
OAuth2 error aborts the flow before the PKCE check and the token-exchange
request.  On success the `onAuth` response is returned with the pending
check-clearing cookies pushed onto its cookie list. -/
def OAuthProvider.callback (C : Crypto) (O : OAuthOracles) (P : OAuthProvider)
    (request : InternalRequest) : Except AuthError InternalResponse × List Ev :=
  match checks.state.use C P.ctx request with
  | .error e => (.error e, [Ev.stateUsed])
  | .ok (state, stateCookie) =>
    let ev := [Ev.stateUsed] ++ (if stateCookie.isSome then [Ev.stateClearCollected] else [])
    let cookies := stateCookie.toList
    match validateAuthResponse state request.query with
    | .error e => (.error e, ev)
    | .ok codeGrantParams =>
      match checks.pkce.use C P.ctx request with
      | .error e => (.error e, ev ++ [Ev.pkceUsed])
      | .ok (pkce, pkceCookie) =>
        let ev := ev ++ [Ev.pkceUsed]
        let cookies := cookies ++ pkceCookie.toList
        let initialResp := O.tokenExchange codeGrantParams
          (request.origin ++ P.pages.callback) pkce
        let ev := ev ++ [Ev.tokenExchanged]
        let codeGrantResponse := match O.conform with
          | some f => (f initialResp).getD initialResp
          | none => initialResp
        match O.wwwAuthenticateChallenges codeGrantResponse with
        | some _ => (.error .wwwAuthenticate, ev)
        | none =>
          match O.processTokens codeGrantResponse with
          | .error _ => (.error .oauthBodyError, ev)
          | .ok tokens =>
            let profile := match O.userinfoRequest with
              | some f => f tokens
              | none => O.userInfoFetch tokens
            let ev := ev ++ [Ev.userinfoFetched]
            if optTruthy profile then
              match profile with
              | some p =>
                let processed := O.onAuth p
                (.ok {processed with cookies := processed.cookies ++ cookies},
                  ev ++ [Ev.onAuthCalled])
              | none => (.error .missingProfile, ev)
            else (.error .missingProfile, ev)

/-- `AuthorizationServer` metadata of the OIDC provider: the fields read by
`signIn` (only `code_challenge_methods_supported` is inspected there). -/
structure AuthorizationServer where
  issuer : String := ""
  codeChallengeMethodsSupported : Option (List String) := none
  deriving Repr, DecidableEq

/-- Pages of the OIDC provider (`signIn`, `signOut`, `callback`). -/
structure OIDCPages where
  signIn : String := ""
  signOut : String := ""
  callback : String := ""
  deriving Repr, DecidableEq

/-- `OIDCProvider` of oidc.ts (first segment): the mutable provider object.
`inited` is the `initialized?` flag; `authorizationUrl` is the single URL
object stored in `oauthFlow.authorization.url`, which `signIn` mutates in
place; `checks` is `config.checks`, which `signIn` reassigns on the PKCE
fallback. -/
structure OIDCProvider where
  inited : Bool := false
  checks : List Check
  secret : String := ""
  stateCookieName : String := "state"
  pkceCookieName : String := "pkce"
  nonceCookieName : String := "nonce"
  pages : OIDCPages := {}
  authServer : AuthorizationServer := {}
  authorizationUrl : Url
  tokenUrl : Url := ⟨"", []⟩
  deriving Repr, DecidableEq

/-- The checks-subsystem view of an `OIDCProvider` (reads the current,
possibly reassigned, checks list). -/
def OIDCProvider.ctx (P : OIDCProvider) : ProviderCheckCtx :=
  ⟨P.checks, P.secret, P.stateCookieName, P.pkceCookieName, P.nonceCookieName⟩

/-- Whether the discovered metadata lists S256 among the supported
code-challenge methods
(`this.authorizationServer.code_challenge_methods_supported?.includes('S256')`,
with a missing list counting as unsupported). -/
def OIDCProvider.s256Supported (P : OIDCProvider) : Bool :=
  (P.authServer.codeChallengeMethodsSupported.getD []).contains "S256"

/-- `OIDCProvider.signIn` (oidc.ts lines 182-220).  Runs `initialize` first
when the provider is uninitialized (`init` is the initialization step,
kept as a parameter because discovery is an external call).  Appends the
parameters and cookies of each enabled check to the SHARED authorization
URL object; when PKCE is enabled but S256 is unsupported it reassigns
`config.checks = ['nonce']` instead of attaching a challenge; the nonce
branch then reads the reassigned list.  Sets `redirect_uri` and `scope`
unless present, and returns the updated provider together with the 302
redirect.  The updated provider keeps both the reassigned checks and the
mutated URL. -/
def OIDCProvider.signInBody (C : Crypto) (E : CheckEntropy) (P0 : OIDCProvider)
    (request : InternalRequest) : OIDCProvider × InternalResponse :=
  let url := P0.authorizationUrl
  let sc := if Check.state ∈ P0.checks then
      let (s, stateCookie) := checks.state.create C E P0.ctx
      ((url.set "state" s), [stateCookie])
    else (url, [])
  let pkceStep : OIDCProvider × Url × List Cookie :=
    if Check.pkce ∈ P0.checks then
      if !P0.s256Supported then
        ({P0 with checks := [Check.nonce]}, sc.1, sc.2)
      else
        let (ch, pkceCookie) := checks.pkce.create C E P0.ctx
        (P0, ((sc.1.set "code_challenge" ch).set "code_challenge_method" "S256"),
          sc.2 ++ [pkceCookie])
    else (P0, sc.1, sc.2)
  let P1 := pkceStep.1
  let nc : Url × List Cookie :=
    if Check.nonce ∈ P1.checks then
      let (n, nonceCookie) := checks.nonce.create C E P1.ctx
      ((pkceStep.2.1.set "nonce" n), pkceStep.2.2 ++ [nonceCookie])
    else pkceStep.2
  let u1 := if nc.1.hasP "redirect_uri" then nc.1
    else nc.1.set "redirect_uri" (request.origin ++ P1.pages.callback)
  let u2 := if u1.hasP "scope" then u1 else u1.set "scope" "openid profile email"
  ({P1 with authorizationUrl := u2},
    { status := some 302, redirect := some u2, cookies := nc.2 })

def OIDCProvider.signIn (init : OIDCProvider → Except AuthError OIDCProvider)
    (C : Crypto) (E : CheckEntropy) (P : OIDCProvider) (request : InternalRequest) :
    Except AuthError (OIDCProvider × InternalResponse) :=
  (if P.inited then .ok P else init P).map fun P0 =>
    OIDCProvider.signInBody C E P0 request

/-- The external collaborators reached by `OIDCProvider.callback`: token
exchange, the `token.conform` function fixed at initialization, challenge
parsing, OIDC token-response processing (which validates the nonce claim),
ID-token claim extraction and the configured `profile` hook. -/
structure OIDCOracles where
  tokenExchange : CodeGrant → String → Option String → HttpResp
  conform : HttpResp → HttpResp := id
  wwwAuthenticateChallenges : HttpResp → Option (List String) := fun _ => none
  processOIDC : HttpResp → Option String → Except String TokenSet
  idTokenClaims : TokenSet → JSValue
  profileHook : JSValue → TokenSet → JSValue

/-- `OIDCProvider.callback` (oidc.ts lines 222-279), with its interaction
trace.  Initializes if needed, then runs the state check first; a state
validation failure aborts before the PKCE check and the token-exchange
request.  On success the collected check-clearing cookies are dropped and
`{ session, redirect: '/', status: 302 }` is returned. -/
def OIDCProvider.callbackBody (C : Crypto) (O : OIDCOracles) (P0 : OIDCProvider)
    (request : InternalRequest) : Except AuthError InternalResponse × List Ev :=
    match checks.state.use C P0.ctx request with
    | .error e => (.error e, [Ev.stateUsed])
    | .ok (state, stateCookie) =>
      let ev := [Ev.stateUsed] ++
        (if stateCookie.isSome then [Ev.stateClearCollected] else [])
      let cookies := stateCookie.toList
      match validateAuthResponse state request.query with
      | .error e => (.error e, ev)
      | .ok codeGrantParams =>
        match checks.pkce.use C P0.ctx request with
        | .error e => (.error e, ev ++ [Ev.pkceUsed])
        | .ok (pkce, pkceCookie) =>
          let ev := ev ++ [Ev.pkceUsed]
          let cookies := cookies ++ pkceCookie.toList
          let initialResp := O.tokenExchange codeGrantParams
            (request.origin ++ P0.pages.callback) pkce
          let ev := ev ++ [Ev.tokenExchanged]
          let codeGrantResponse := O.conform initialResp
          match O.wwwAuthenticateChallenges codeGrantResponse with
          | some _ => (.error .wwwAuthenticate, ev)
          | none =>
            match checks.nonce.use C P0.ctx request with
            | .error e => (.error e, ev ++ [Ev.nonceUsed])
            | .ok (nonce, nonceCookie) =>
              let ev := ev ++ [Ev.nonceUsed]
              let _cookies := cookies ++ nonceCookie.toList
              match O.processOIDC codeGrantResponse nonce with
              | .error _ => (.error .oidcBodyError, ev)
              | .ok result =>
                let profile := O.idTokenClaims result
                let session := O.profileHook profile result
                (.ok { session := some session, redirect := some ⟨"/", []⟩,
                       status := some 302 }, ev)

def OIDCProvider.callback (init : OIDCProvider → Except AuthError OIDCProvider)
    (C : Crypto) (O : OIDCOracles) (P : OIDCProvider) (request : InternalRequest) :
    Except AuthError InternalResponse × List Ev :=
  match (if P.inited then .ok (P, ([] : List Ev)) else (init P).map fun Q => (Q, [Ev.initCalled]) :
      Except AuthError (OIDCProvider × List Ev)) with
  | .error e => (.error e, [Ev.initCalled])
  | .ok (P0, ev0) =>
    let r := OIDCProvider.callbackBody C O P0 request
    (r.1, ev0 ++ r.2)

/-- User-level OAuth options relevant to `mergeOAuthOptions`: every field the
user may omit is an `Option`. -/
structure OAuthUserConfigM where
  id : Option String := none
  clientId : String := ""
  clientSecret : String := ""
  checks : Option (List Check) := none
  loginPage : Option String := none
  callbackPage : Option String := none
  authorizationUrl : Option Url := none
  tokenUrl : Option Url := none
  userinfoUrl : Option Url := none
  deriving Repr, DecidableEq

/-- Default (provider-preset) OAuth options for `mergeOAuthOptions`. -/
structure OAuthDefaultConfigM where
  id : String
  checks : Option (List Check) := none
  authorizationUrl : Url
  authorizationParams : List (String × JSValue) := []
  tokenUrl : Url := ⟨"", []⟩
  userinfoUrl : Url := ⟨"", []⟩
  deriving Repr, DecidableEq

/-- The merged internal OAuth configuration produced by `mergeOAuthOptions`. -/
structure MergedOAuthConfig where
  id : String
  clientId : String
  clientSecret : String
  checks : List Check
  loginPage : String
  callbackPage : String
  authorizationUrl : Url
  authorizationParams : List (String × JSValue)
  tokenUrl : Url
  userinfoUrl : Url
  deriving Repr, DecidableEq

/-- `mergeOAuthOptions` (oidc.ts lines 579-656): merges user options with the
provider's default options; in particular
`checks: userOptions.checks ?? defaultOptions.checks ?? ['pkce']`, default
pages derived from the merged id, endpoint URLs taken from the user when
given, and `client_id`/`response_type` forced into the authorization
parameters. -/
def mergeOAuthOptions (u : OAuthUserConfigM) (d : OAuthDefaultConfigM) :
    MergedOAuthConfig :=
  let id := u.id.getD d.id
  { id := id
    clientId := u.clientId
    clientSecret := u.clientSecret
    checks := u.checks.getD (d.checks.getD [Check.pkce])
    loginPage := u.loginPage.getD ("/auth/login/" ++ id)
    callbackPage := u.callbackPage.getD ("/auth/callback/" ++ id)
    authorizationUrl := u.authorizationUrl.getD d.authorizationUrl
    authorizationParams := d.authorizationParams ++
      [("client_id", JSValue.str u.clientId), ("response_type", JSValue.str "code")]
    tokenUrl := u.tokenUrl.getD d.tokenUrl
    userinfoUrl := u.userinfoUrl.getD d.userinfoUrl }

/-- Nested `options` record accepted by the `OIDCProvider` constructor. -/
structure OIDCRawOptions where
  checks : Option (List Check) := none
  deriving Repr, DecidableEq

/-- Provider config handed to the `OIDCProvider` constructor, with its
optional nested `options`. -/
structure OIDCRawConfig where
  checks : Option (List Check) := none
  options : Option OIDCRawOptions := none
  deriving Repr, DecidableEq

/-- Modelled from the spec: the deep-merge utility
(src/packages/core/src/utils/merge, not under src/) as applied by the
constructor's `merge(provider, provider.options)` — a defined field of the
second argument overrides the first. -/
def mergeProviderOptions (provider : OIDCRawConfig) (options : Option OIDCRawOptions) :
    Option (List Check) :=
  (options.bind (fun o => o.checks)).orElse (fun _ => provider.checks)

/-- The `checks` list of `this.config` after the `OIDCProvider` constructor
(oidc.ts lines 87-88): the merged checks, defaulted to `['pkce']` via
`this.config.checks ??= ['pkce']`. -/
def oidcConstructorChecks (provider : OIDCRawConfig) : List Check :=
  (mergeProviderOptions provider provider.options).getD [Check.pkce]

/-- Whether an `Except` result is a normal return (no thrown error). -/
def exceptOk : Except ε α → Bool
  | .ok _ => true
  | .error _ => false

/-- Whether a cookie list contains a cookie of the given name. -/
def hasCookieNamed (cs : List Cookie) (n : String) : Bool :=
  cs.any fun c => c.name = n

/-- The state check fails on this request: the state cookie is missing, does
not decode, or its decoded value differs from the `state` query parameter. -/
def stateCheckFailsB (C : Crypto) (ctx : ProviderCheckCtx) (request : InternalRequest) : Bool :=
  match lookupStr request.cookies ctx.stateCookieName with
  | none => true
  | some raw =>
    match C.decodeToken ctx.secret raw with
    | none => true
    | some v => lookupStr request.query "state" != some v

/-- Concrete cookie-name configuration used by the concrete scenarios. -/
def sessionCookiesX : SessionCookiesOptions :=
  { accessToken := { name := "a.tok" }, refreshToken := { name := "r.tok" } }

/-- Concrete manager whose invalidation hook rejects (throws). -/
def mgrHookThrows : TokenSessionManager :=
  { secret := "sec"
    accessMaxAge := 3600
    refreshMaxAge := 604800
    cookies := sessionCookiesX
    encode := fun _ => "enc"
    decode := fun p => .ok (p.token.map fun _ => .obj 1)
    createSession := fun _ => .ok none
    refreshSession := fun _ => .ok none
    onInvalidateSession := some fun _ _ => .error (.err "hook rejected") }

/-- Concrete manager whose invalidation hook returns a response normally. -/
def mgrLogoutOk : TokenSessionManager :=
  { secret := "sec"
    accessMaxAge := 3600
    refreshMaxAge := 604800
    cookies := sessionCookiesX
    encode := fun _ => "enc"
    decode := fun p => .ok (p.token.map fun _ => .obj 1)
    createSession := fun _ => .ok none
    refreshSession := fun _ => .ok none
    onInvalidateSession := some fun _ _ => .ok (some { status := some 200 }) }

/-- Concrete request carrying both session cookies. -/
def reqWithBoth : InternalRequest :=
  { cookies := [("a.tok", "av"), ("r.tok", "rv")] }

/-- Concrete plain manager (no hook; decoder always yields no payload). -/
def mgrPlain : TokenSessionManager :=
  { secret := "sec"
    accessMaxAge := 3600
    refreshMaxAge := 604800
    cookies := sessionCookiesX
    encode := fun _ => "enc"
    decode := fun _ => .ok none
    createSession := fun _ => .ok none
    refreshSession := fun _ => .ok none
    onInvalidateSession := none }

/-- Concrete manager whose refresh callback returns a full new session and
whose decoder accepts any present token. -/
def mgrRefresh : TokenSessionManager :=
  { secret := "sec"
    accessMaxAge := 3600
    refreshMaxAge := 604800
    cookies := sessionCookiesX
    encode := fun _ => "enc"
    decode := fun p => .ok (p.token.map fun _ => .obj 7)
    createSession := fun _ => .ok none
    refreshSession := fun _ => .ok (some ⟨.str "newAccess", .str "newRefresh"⟩)
    onInvalidateSession := none }

/-- Concrete request with an EMPTY-valued access cookie and a refresh cookie. -/
def reqEmptyAccess : InternalRequest :=
  { cookies := [("a.tok", ""), ("r.tok", "rv")] }

/-- Concrete request with only a refresh cookie. -/
def reqOnlyRefresh : InternalRequest :=
  { cookies := [("r.tok", "rv")] }

/-- Concrete manager whose session-creation callback returns a new session. -/
def mgrSession : TokenSessionManager :=
  { secret := "sec"
    accessMaxAge := 3600
    refreshMaxAge := 604800
    cookies := sessionCookiesX
    encode := fun _ => "enc"
    decode := fun _ => .ok none
    createSession := fun _ => .ok (some ⟨.str "A", .undefined⟩)
    refreshSession := fun _ => .ok none
    onInvalidateSession := none }

/-- Concrete response carrying a defined but falsy (empty-string) user. -/
def respUserEmpty : InternalResponse :=
  { status := some 200, cookies := [⟨"c0", "v0", {}⟩], user := some (.str "") }

/-- Concrete response carrying a truthy user object. -/
def respUserObj : InternalResponse :=
  { status := some 200, cookies := [⟨"c0", "v0", {}⟩], user := some (.obj 5) }

/-- Concrete crypto collaborators for the provider scenarios: check tokens
are encoded as `secret ++ "|" ++ payload` and decoded by table. -/
def cryptoX : Crypto :=
  { encodeToken := fun s p => s ++ "|" ++ p
    decodeToken := fun s t =>
      if s = "sec" && t = "sec|sv" then some "sv"
      else if s = "sec" && t = "sec|pv" then some "pv"
      else if s = "sec" && t = "sec|nv" then some "nv"
      else none
    s256 := fun v => "S" ++ v }

/-- Concrete fresh check values. -/
def entropyX : CheckEntropy :=
  { stateValue := "sv", pkceVerifier := "pv", nonceValue := "nv" }

/-- Concrete login/callback request with no cookies. -/
def reqX : InternalRequest :=
  { origin := "https://app.example" }

/-- Concrete callback request whose state cookie decodes to a value that
differs from the `state` query parameter. -/
def reqStateMismatch : InternalRequest :=
  { origin := "https://app.example"
    query := [("code", "c1"), ("state", "other")]
    cookies := [("state", "sec|sv")] }

/-- Identity initialization step (used where the provider is already
initialized, so the step is never reached). -/
def initId : OIDCProvider → Except AuthError OIDCProvider := fun P => .ok P

/-- Concrete OAuth provider with all three checks enabled. -/
def provOAuthX : OAuthProvider :=
  { id := "github"
    clientId := "cid"
    checks := [Check.state, Check.pkce, Check.nonce]
    secret := "sec"
    pages := { login := "/auth/login/github", callback := "/auth/callback/github" }
    authorizationEndpoint :=
      { url := ⟨"https://github.example/authorize", []⟩
        params := [("client_id", JSValue.str "cid"), ("response_type", JSValue.str "code")] } }

/-- Concrete OAuth provider with only the state check enabled. -/
def provOAuthState : OAuthProvider :=
  { id := "github"
    clientId := "cid"
    checks := [Check.state]
    secret := "sec"
    pages := { login := "/auth/login/github", callback := "/auth/callback/github" }
    authorizationEndpoint := { url := ⟨"https://github.example/authorize", []⟩ } }

/-- Concrete OAuth collaborators. -/
def oauthOraclesX : OAuthOracles :=
  { tokenExchange := fun _ _ _ => {}
    processTokens := fun _ => .ok { accessToken := some "at" }
    userInfoFetch := fun _ => some (.obj 9)
    onAuth := fun u => { user := some u } }

/-- Concrete initialized OIDC provider with PKCE enabled and S256 NOT listed
among the supported code-challenge methods. -/
def provPkceNoS256 : OIDCProvider :=
  { inited := true
    checks := [Check.pkce]
    secret := "sec"
    pages := { callback := "/auth/callback/google" }
    authServer := { issuer := "https://as.example"
                    codeChallengeMethodsSupported := some ["plain"] }
    authorizationUrl := ⟨"https://as.example/authorize",
      [("response_type", "code"), ("client_id", "cid")]⟩ }

/-- Concrete initialized OIDC provider with the state check enabled. -/
def provOIDCState : OIDCProvider :=
  { inited := true
    checks := [Check.state, Check.nonce]
    secret := "sec"
    pages := { callback := "/auth/callback/google" }
    authServer := { issuer := "https://as.example"
                    codeChallengeMethodsSupported := some ["S256"] }
    authorizationUrl := ⟨"https://as.example/authorize",
      [("response_type", "code"), ("client_id", "cid")]⟩ }

/-- Concrete OIDC collaborators. -/
def oidcOraclesX : OIDCOracles :=
  { tokenExchange := fun _ _ _ => {}
    processOIDC := fun _ _ => .ok { accessToken := some "at" }
    idTokenClaims := fun _ => .obj 3
    profileHook := fun p _ => p }

/-- Concrete user options with no checks configured. -/
def userCfgX : OAuthUserConfigM :=
  { clientId := "cid", clientSecret := "cs" }

/-- Concrete default options with no checks configured. -/
def defaultCfgX : OAuthDefaultConfigM :=
  { id := "github", authorizationUrl := ⟨"https://github.example/authorize", []⟩ }

/-- Concrete raw OIDC provider config with no checks configured anywhere. -/
def rawCfgX : OIDCRawConfig :=
  { options := some {} }

/-- `OAuthProvider.login` together with the provider state after the call:
the method (oidc.ts lines 471-505) contains no assignment to `this` — it
copies the endpoint URL with `new URL(...)` and mutates only the copy — so
the state after the call is the state before it. -/
def OAuthProvider.loginS (C : Crypto) (E : CheckEntropy) (P : OAuthProvider)
    (request : InternalRequest) : OAuthProvider × InternalResponse :=
  (P, OAuthProvider.login C E P request)

/-- `OAuthProvider.callback` together with the provider state after the
call: the method (oidc.ts lines 510-572) contains no assignment to `this`,
so the state after the call is the state before it. -/
def OAuthProvider.callbackS (C : Crypto) (O : OAuthOracles) (P : OAuthProvider)
    (request : InternalRequest) :
    OAuthProvider × (Except AuthError InternalResponse × List Ev) :=
  (P, OAuthProvider.callback C O P request)

/-- `OIDCProvider.callback` together with the provider state after the
call: the only provider-state writes in the method (oidc.ts lines 222-279)
happen inside the lazy `initialize()` call on its first line; the rest of
the method reads provider state (checks, authorization server, client,
pages) but never writes it, so the state after the call is the state after
the initialization step. -/
def OIDCProvider.callbackS (init : OIDCProvider → Except AuthError OIDCProvider)
    (C : Crypto) (O : OIDCOracles) (P : OIDCProvider) (request : InternalRequest) :
    Except AuthError OIDCProvider × (Except AuthError InternalResponse × List Ev) :=
  ((if P.inited then .ok P else init P), OIDCProvider.callback init C O P request)

/-- Concrete initialized OIDC provider with only the pkce check enabled and
S256 listed among the supported code-challenge methods. -/
def provOIDCPkce : OIDCProvider :=
  { inited := true
    checks := [Check.pkce]
    secret := "sec"
    pages := { callback := "/auth/callback/acme" }
    authServer := { issuer := "https://as.example"
                    codeChallengeMethodsSupported := some ["S256", "plain"] }
    authorizationUrl := ⟨"https://as.example/authorize", [("client_id", "cid")]⟩ }

theorem lookupStr_removeKey_ne {k k2 : String} (h : k2 ≠ k) (l : List (String × String)) :
    lookupStr (removeKey l k) k2 = lookupStr l k2 := by
  induction l with
  | nil => rfl
  | cons hd tl ih =>
    obtain ⟨k0, v0⟩ := hd
    by_cases hk : k0 = k
    · subst hk
      have hne : k0 ≠ k2 := fun hh => h (hh ▸ rfl)
      simp [removeKey, lookupStr, hne, ih]
    · simp [removeKey, lookupStr, hk, ih]

theorem lookupStr_setParamList_self (l : List (String × String)) (k v : String) :
    lookupStr (setParamList l k v) k = some v := by
  induction l with
  | nil => simp [setParamList, lookupStr]
  | cons hd tl ih =>
    obtain ⟨k0, v0⟩ := hd
    by_cases hk : k0 = k
    · simp [setParamList, hk, lookupStr]
    · simp [setParamList, hk, lookupStr, ih]

theorem lookupStr_setParamList_ne {k k2 : String} (h : k2 ≠ k)
    (l : List (String × String)) (v : String) :
    lookupStr (setParamList l k v) k2 = lookupStr l k2 := by
  induction l with
  | nil => simp [setParamList, lookupStr, Ne.symm h]
  | cons hd tl ih =>
    obtain ⟨k0, v0⟩ := hd
    by_cases hk : k0 = k
    · subst hk
      have hne : k0 ≠ k2 := fun hh => h (hh ▸ rfl)
      simp [setParamList, lookupStr, hne, lookupStr_removeKey_ne h tl]
    · simp [setParamList, hk, lookupStr, ih]

theorem Url.get_set_self (u : Url) (k v : String) : (u.set k v).get k = some v :=
  lookupStr_setParamList_self u.params k v

theorem Url.get_set_ne (u : Url) {k k2 : String} (h : k2 ≠ k) (v : String) :
    (u.set k v).get k2 = u.get k2 :=
  lookupStr_setParamList_ne h u.params v

@[simp] theorem Url.base_set (u : Url) (k v : String) : (u.set k v).base = u.base := rfl

theorem applyParams_base (l : List (String × JSValue)) (u : Url) :
    (applyParams u l).base = u.base := by
  induction l generalizing u with
  | nil => rfl
  | cons hd tl ih =>
    obtain ⟨k, j⟩ := hd
    cases j <;> simp [applyParams, ih]

theorem staticAuthUrl_base (P : OAuthProvider) :
    P.staticAuthUrl.base = P.authorizationEndpoint.url.base :=
  applyParams_base P.authorizationEndpoint.params P.authorizationEndpoint.url

namespace Jwt

theorem splitDots_ne_nil (l : List Char) : splitDots l ≠ [] := by
  induction l with
  | nil => simp [splitDots]
  | cons c tl ih =>
    by_cases hc : c = '.'
    · simp [splitDots, hc]
    · cases h : splitDots tl <;> simp [splitDots, hc, h]

theorem splitDots_nodot (l : List Char) (h : '.' ∉ l) : splitDots l = [l] := by
  induction l with
  | nil => rfl
  | cons c tl ih =>
    have hc : c ≠ '.' := fun hh => h (hh ▸ List.mem_cons_self c tl)
    have htl : '.' ∉ tl := fun hh => h (List.mem_cons_of_mem c hh)
    simp [splitDots, hc, ih htl]

theorem splitDots_append_dot (a b : List Char) (h : '.' ∉ a) :
    splitDots (a ++ '.' :: b) = a :: splitDots b := by
  induction a with
  | nil => simp [splitDots]
  | cons c tl ih =>
    have hc : c ≠ '.' := fun hh => h (hh ▸ List.mem_cons_self c tl)
    have htl : '.' ∉ tl := fun hh => h (List.mem_cons_of_mem c hh)
    rw [List.cons_append]
    rw [show splitDots (c :: (tl ++ '.' :: b)) =
        (if c = '.' then [] :: splitDots (tl ++ '.' :: b)
         else match splitDots (tl ++ '.' :: b) with
           | [] => [[c]]
           | p :: ps => (c :: p) :: ps) from rfl]
    rw [if_neg hc, ih htl]

theorem digitChar_ne_dot (k : Nat) : digitChar k ≠ '.' := by
  unfold digitChar
  split <;> decide

theorem digitsCore_nodot (fuel : Nat) : ∀ n : Nat, '.' ∉ digitsCore fuel n := by
  induction fuel with
  | zero => intro n; simp [digitsCore]
  | succ f ih =>
    intro n
    cases n with
    | zero => simp [digitsCore]
    | succ m =>
      simp only [digitsCore, List.mem_append, List.mem_singleton]
      rintro (hmem | heq)
      · exact ih _ hmem
      · exact digitChar_ne_dot _ heq.symm

theorem tagOf_nodot (secret payload : List Char) : '.' ∉ tagOf secret payload :=
  digitsCore_nodot 8 (chk secret payload)

/-- Round trip of the modelled codec: an authentic token decrypts to its
payload (for payloads without a dot, which cannot occur inside one JWE
segment). -/
theorem joseJwtDecrypt_encode (s p : String) (hp : '.' ∉ p.data) :
    joseJwtDecrypt s (encodeJwtModel s p) = .ok (.str p) := by
  unfold joseJwtDecrypt encodeJwtModel
  have e1 : (['h', '.', 'k', '.', 'i', '.'] ++ p.data ++ '.' :: tagOf s.data p.data : List Char)
      = ['h'] ++ '.' :: (['k'] ++ '.' :: (['i'] ++ '.' :: (p.data ++ '.' :: tagOf s.data p.data))) := by
    simp
  rw [show (String.mk (['h', '.', 'k', '.', 'i', '.'] ++ p.data ++ '.' :: tagOf s.data p.data)).data
      = ['h', '.', 'k', '.', 'i', '.'] ++ p.data ++ '.' :: tagOf s.data p.data from rfl, e1,
    splitDots_append_dot _ _ (by decide), splitDots_append_dot _ _ (by decide),
    splitDots_append_dot _ _ (by decide), splitDots_append_dot _ _ hp,
    splitDots_nodot _ (tagOf_nodot s.data p.data)]
  show (if tagOf s.data p.data = tagOf s.data p.data then
      Except.ok (JSValue.str (String.mk p.data))
    else Except.error JoseError.decryptionFailed) = Except.ok (JSValue.str p)
  rw [if_pos rfl]

end Jwt

/-- C3 counterexample: the claim "`decode(token, secret)` returns the payload
or null and never throws on malformed, tampered, or expired input" is false
at concrete inputs: `decode` of the malformed token "x" propagates the
thrown `JWEInvalid` error, and `decode` of an authentic token with a single
mutated byte ('a' changed to 'b') propagates the thrown decryption failure —
in neither case is `null` returned. -/
theorem aponia_C3_cex :
    Jwt.decode (Jwt.joseJwtDecrypt "s") (some "x") = .error .invalidCompactJWE
    ∧ Jwt.encodeJwtModel "s" "ab" = "h.k.i.ab.323150"
    ∧ Jwt.decode (Jwt.joseJwtDecrypt "s") (some "h.k.i.ab.323150") = .ok (some (.str "ab"))
    ∧ Jwt.decode (Jwt.joseJwtDecrypt "s") (some "h.k.i.bb.323150") = .error .decryptionFailed := by
  refine ⟨rfl, rfl, rfl, rfl⟩

/-- C3 amended: `decode` returns `null` exactly when the input token is
null/undefined; it round-trips authentic tokens; and for a present token
string it NEVER returns `null` — malformed, tampered or expired tokens make
the underlying `jwtDecrypt` throw and `decode` propagates that error
(there is no try/catch in `decode`). -/
theorem aponia_C3 (s p : String) (hp : '.' ∉ p.data) :
    Jwt.decode (Jwt.joseJwtDecrypt s) none = .ok none
    ∧ Jwt.decode (Jwt.joseJwtDecrypt s) (some (Jwt.encodeJwtModel s p)) = .ok (some (.str p))
    ∧ ∀ (D : String → Except Jwt.JoseError JSValue) (t : String),
        Jwt.decode D (some t) ≠ .ok none := by
  refine ⟨rfl, ?_, ?_⟩
  · show Except.map some (Jwt.joseJwtDecrypt s (Jwt.encodeJwtModel s p))
      = Except.ok (some (JSValue.str p))
    rw [Jwt.joseJwtDecrypt_encode s p hp]
    rfl
  · intro D t hcontra
    have hcontra2 : Except.map some (D t) = Except.ok none := hcontra
    cases hD : D t with
    | ok v => rw [hD] at hcontra2; simp [Except.map] at hcontra2
    | error e => rw [hD] at hcontra2; simp [Except.map] at hcontra2

/-- C3 witness: the amended theorem applied at secret "s" and payload "ab". -/
theorem aponia_C3_witness :
    Jwt.decode (Jwt.joseJwtDecrypt "s") none = .ok none
    ∧ Jwt.decode (Jwt.joseJwtDecrypt "s") (some (Jwt.encodeJwtModel "s" "ab"))
        = .ok (some (JSValue.str "ab"))
    ∧ Jwt.decode (Jwt.joseJwtDecrypt "s") (some "zz") ≠ .ok none :=
  ⟨(aponia_C3 "s" "ab" (by decide)).1, (aponia_C3 "s" "ab" (by decide)).2.1,
    (aponia_C3 "s" "ab" (by decide)).2.2 (Jwt.joseJwtDecrypt "s") "zz"⟩

/-- C4 counterexample: the claim "emits an access-token cookie if and only if
the session's accessToken is defined" is false at a session whose
accessToken is the defined but falsy empty string: `createCookies` emits NO
cookies for it (the code tests JS truthiness, not definedness). -/
theorem aponia_C4_cex :
    TokenSessionManager.createCookies mgrPlain
      (some ⟨JSValue.str "", JSValue.undefined⟩) = []
    ∧ JSValue.str "" ≠ JSValue.undefined ∧ JSValue.str "" ≠ JSValue.null := by
  refine ⟨rfl, by decide, by decide⟩

/-- C4 amended: `createCookies` emits an access-token cookie iff the session
is non-nullish and its accessToken is TRUTHY, and a refresh-token cookie iff
the session is non-nullish and its refreshToken is truthy (so defined but
falsy token values, such as the empty string, yield no cookie); a nullish
session yields no cookies. -/
theorem aponia_C4 (M : TokenSessionManager) (ns : Option NewSession)
    (hn : M.cookies.accessToken.name ≠ M.cookies.refreshToken.name) :
    TokenSessionManager.createCookies M none = []
    ∧ hasCookieNamed (M.createCookies ns) M.cookies.accessToken.name
        = (ns.map fun s => truthy s.accessToken).getD false
    ∧ hasCookieNamed (M.createCookies ns) M.cookies.refreshToken.name
        = (ns.map fun s => truthy s.refreshToken).getD false := by
  refine ⟨rfl, ?_, ?_⟩ <;>
  · cases ns with
    | none => rfl
    | some s =>
      by_cases ha : truthy s.accessToken <;> by_cases hr : truthy s.refreshToken <;>
        simp [TokenSessionManager.createCookies, hasCookieNamed, ha, hr, hn, Ne.symm hn]

/-- C4 witness: the amended theorem applied at a concrete manager and a
session with a truthy access token and an absent refresh token. -/
theorem aponia_C4_witness :
    TokenSessionManager.createCookies mgrPlain none = []
    ∧ hasCookieNamed
        (mgrPlain.createCookies (some ⟨JSValue.str "A", JSValue.undefined⟩))
        mgrPlain.cookies.accessToken.name
      = ((some (⟨JSValue.str "A", JSValue.undefined⟩ : NewSession)).map
          fun s => truthy s.accessToken).getD false
    ∧ hasCookieNamed
        (mgrPlain.createCookies (some ⟨JSValue.str "A", JSValue.undefined⟩))
        mgrPlain.cookies.refreshToken.name
      = ((some (⟨JSValue.str "A", JSValue.undefined⟩ : NewSession)).map
          fun s => truthy s.refreshToken).getD false :=
  aponia_C4 mgrPlain (some ⟨JSValue.str "A", JSValue.undefined⟩) (by decide)

/-- C9 counterexample: the claim "when the response carries a user, it
invokes the session-creation callback and appends the resulting cookies" is
false at a response whose user is the defined but falsy empty string: the
response is returned unchanged even though the callback would have produced
a cookie (the code tests `!response.user`, i.e. JS truthiness). -/
theorem aponia_C9_cex :
    respUserEmpty.user = some (JSValue.str "")
    ∧ TokenSessionManager.handleResponse mgrSession respUserEmpty = .ok respUserEmpty
    ∧ mgrSession.createSession (JSValue.str "")
        = .ok (some ⟨JSValue.str "A", JSValue.undefined⟩)
    ∧ TokenSessionManager.createCookies mgrSession
        (some ⟨JSValue.str "A", JSValue.undefined⟩) ≠ [] := by
  refine ⟨rfl, rfl, rfl, by decide⟩

/-- C9 amended: `handleResponse` returns the response unchanged when its
user is absent or falsy; when the user is truthy it invokes `createSession`
and appends the resulting cookies to the END of the existing cookie list,
leaving every other response field unchanged. -/
theorem aponia_C9 (M : TokenSessionManager) (resp : InternalResponse) (ns : Option NewSession)
    (hcs : ∀ u, resp.user = some u → M.createSession u = .ok ns) :
    TokenSessionManager.handleResponse M resp =
      .ok (if optTruthy resp.user
        then {resp with cookies := resp.cookies ++ M.createCookies ns}
        else resp) := by
  cases hu : resp.user with
  | none => simp [TokenSessionManager.handleResponse, hu, optTruthy]
  | some u =>
    by_cases ht : truthy u
    · simp [TokenSessionManager.handleResponse, hu, optTruthy, ht, hcs u hu, Except.map]
    · simp [TokenSessionManager.handleResponse, hu, optTruthy, ht]

/-- C9 witness: the amended theorem applied at a response carrying a truthy
user object. -/
theorem aponia_C9_witness :
    TokenSessionManager.handleResponse mgrSession respUserObj =
      .ok (if optTruthy respUserObj.user
        then {respUserObj with cookies :=
          respUserObj.cookies ++ mgrSession.createCookies (some ⟨JSValue.str "A", JSValue.undefined⟩)}
        else respUserObj) :=
  aponia_C9 mgrSession respUserObj (some ⟨JSValue.str "A", JSValue.undefined⟩)
    (fun _ _ => rfl)

/-- C10: a provider constructed without an explicit checks configuration gets
`checks = ['pkce']`: `mergeOAuthOptions` falls back to `['pkce']` when
neither the user options nor the provider defaults configure checks, and the
`OIDCProvider` constructor applies `this.config.checks ??= ['pkce']` when the
merged provider config has no checks. -/
theorem aponia_C10 (u : OAuthUserConfigM) (d : OAuthDefaultConfigM) (p : OIDCRawConfig)
    (h1 : u.checks = none) (h2 : d.checks = none)
    (h3 : p.checks = none) (h4 : p.options.bind (fun o => o.checks) = none) :
    (mergeOAuthOptions u d).checks = [Check.pkce]
    ∧ oidcConstructorChecks p = [Check.pkce] := by
  constructor
  · simp [mergeOAuthOptions, h1, h2]
  · simp [oidcConstructorChecks, mergeProviderOptions, h3, h4, Option.orElse]

/-- C10 witness: the theorem applied at concrete configurations with no
checks configured anywhere. -/
theorem aponia_C10_witness :
    (mergeOAuthOptions userCfgX defaultCfgX).checks = [Check.pkce]
    ∧ oidcConstructorChecks rawCfgX = [Check.pkce] :=
  aponia_C10 userCfgX defaultCfgX rawCfgX rfl rfl rfl rfl

/-- C2 counterexample: the claim "`logout` returns a response whose cookie
list ends with the two clearing cookies even when the invalidation hook
fails, and failures are never surfaced as thrown errors" is false at a
concrete manager whose invalidation hook rejects: `logout` propagates the
rejection (there is no try/catch) and no clearing cookies are produced. -/
theorem aponia_C2_cex :
    TokenSessionManager.logout mgrHookThrows reqWithBoth = .error (.err "hook rejected") := rfl

/-- C2 amended: whenever both decode calls return normally (possibly with
null) and the invalidation hook, if configured, returns normally (possibly
nothing), `logout` returns a response whose cookie list ends with the
access-token and refresh-token clearing cookies (empty value, maxAge 0);
but a rejection thrown by the decoder or by the invalidation hook
propagates out of `logout` and skips the clearing step. -/
theorem aponia_C2 (M : TokenSessionManager) (req : InternalRequest) (sa sr : Option JSValue)
    (h1 : M.decode ⟨M.secret, lookupStr req.cookies M.cookies.accessToken.name⟩ = .ok sa)
    (h2 : M.decode ⟨M.secret, lookupStr req.cookies M.cookies.refreshToken.name⟩ = .ok sr)
    (h3 : ∀ s r, (M.onInvalidateSession.map fun f => exceptOk (f s r)).getD true = true) :
    ∃ resp : InternalResponse, TokenSessionManager.logout M req = .ok resp
      ∧ ∃ pre, resp.cookies = pre ++
          [clearCookie M.cookies.accessToken, clearCookie M.cookies.refreshToken] := by
  simp only [TokenSessionManager.logout, h1, h2, Except.bind]
  split
  next s =>
    split
    next ht =>
      split
      next hook heq =>
        have h3s := h3 s sr
        rw [heq] at h3s
        simp only [Option.map, Option.getD] at h3s
        cases hF : hook s sr with
        | error e => rw [hF] at h3s; simp [exceptOk] at h3s
        | ok ro => exact ⟨_, rfl, (ro.getD {}).cookies, rfl⟩
      next heq => exact ⟨_, rfl, [], rfl⟩
    next ht => exact ⟨_, rfl, [], rfl⟩
  next => exact ⟨_, rfl, [], rfl⟩

/-- C2 witness: the amended theorem applied at a concrete manager whose hook
returns a response, with both cookies present and decoding to a session. -/
theorem aponia_C2_witness :
    ∃ resp : InternalResponse, TokenSessionManager.logout mgrLogoutOk reqWithBoth = .ok resp
      ∧ ∃ pre, resp.cookies = pre ++
          [clearCookie mgrLogoutOk.cookies.accessToken,
           clearCookie mgrLogoutOk.cookies.refreshToken] :=
  aponia_C2 mgrLogoutOk reqWithBoth (some (.obj 1)) (some (.obj 1)) rfl rfl
    (fun _ _ => rfl)

/-- C5 counterexample: the claim "when the access cookie is present the
request passes through unchanged (an empty response with no cookies)" is
false at a request whose access cookie is present with an EMPTY value: the
code tests JS truthiness, treats the empty cookie as absent, invokes the
refresh callback, and returns freshly issued cookies. -/
theorem aponia_C5_cex :
    lookupStr reqEmptyAccess.cookies mgrRefresh.cookies.accessToken.name = some ""
    ∧ TokenSessionManager.handleRequest mgrRefresh reqEmptyAccess =
        .ok { cookies := [⟨"a.tok", "enc", ⟨some 3600⟩⟩, ⟨"r.tok", "enc", ⟨some 604800⟩⟩] } := by
  refine ⟨rfl, rfl⟩

/-- C5 amended: with a decoder that returns normally, `handleRequest`
invokes the refresh callback exactly when the access cookie is absent OR
EMPTY, the refresh cookie is present and non-empty, and the refresh cookie
decodes to a truthy payload — in which case it returns the new session's
cookies; in every other case it returns the empty response; and the result
never depends on the session-creation callback `createSession`. -/
theorem aponia_C5 (M : TokenSessionManager) (req : InternalRequest)
    (rv : Option JSValue) (ns : Option NewSession)
    (hdec : M.decode ⟨M.secret, lookupStr req.cookies M.cookies.refreshToken.name⟩ = .ok rv)
    (hrs : ∀ v, rv = some v → M.refreshSession v = .ok ns) :
    (TokenSessionManager.handleRequest M req =
      if (!strTruthy (lookupStr req.cookies M.cookies.accessToken.name)
          && strTruthy (lookupStr req.cookies M.cookies.refreshToken.name)
          && optTruthy rv) = true
      then .ok { cookies := M.createCookies ns }
      else .ok {})
    ∧ ∀ f, TokenSessionManager.handleRequest { M with createSession := f } req
        = TokenSessionManager.handleRequest M req := by
  constructor
  · simp only [TokenSessionManager.handleRequest, hdec, Except.bind]
    split
    next r =>
      simp only [optTruthy, Option.map, Option.getD]
      split
      next hc =>
        rw [hrs r rfl]
        rfl
      next hc => rfl
    next => simp [optTruthy]
  · intro f
    rfl

/-- C5 witness: the amended theorem applied at a request carrying only a
valid refresh cookie, and at a manager variant with a different
session-creation callback. -/
theorem aponia_C5_witness :
    (TokenSessionManager.handleRequest mgrRefresh reqOnlyRefresh =
      if (!strTruthy (lookupStr reqOnlyRefresh.cookies mgrRefresh.cookies.accessToken.name)
          && strTruthy (lookupStr reqOnlyRefresh.cookies mgrRefresh.cookies.refreshToken.name)
          && optTruthy (some (.obj 7))) = true
      then .ok { cookies :=
        mgrRefresh.createCookies (some ⟨.str "newAccess", .str "newRefresh"⟩) }
      else .ok {})
    ∧ TokenSessionManager.handleRequest
        { mgrRefresh with createSession := fun _ => .ok none } reqOnlyRefresh
      = TokenSessionManager.handleRequest mgrRefresh reqOnlyRefresh := by
  have h := aponia_C5 mgrRefresh reqOnlyRefresh (some (.obj 7))
    (some ⟨.str "newAccess", .str "newRefresh"⟩) rfl
    (fun v hv => by injection hv with hv2; subst hv2; rfl)
  exact ⟨h.1, h.2 _⟩

theorem checkedAuthUrl_base (C : Crypto) (E : CheckEntropy) (P : OAuthProvider) :
    (P.checkedAuthUrl C E).base = P.authorizationEndpoint.url.base := by
  unfold OAuthProvider.checkedAuthUrl
  split_ifs <;> simp [staticAuthUrl_base]

theorem checkedAuthUrl_get_other (C : Crypto) (E : CheckEntropy) (P : OAuthProvider)
    {k : String} (h1 : k ≠ "state") (h2 : k ≠ "code_challenge")
    (h3 : k ≠ "code_challenge_method") (h4 : k ≠ "nonce") :
    (P.checkedAuthUrl C E).get k = P.staticAuthUrl.get k := by
  unfold OAuthProvider.checkedAuthUrl
  split_ifs <;> simp [Url.get_set_ne, h1, h2, h3, h4]

theorem checkedAuthUrl_get_state (C : Crypto) (E : CheckEntropy) (P : OAuthProvider)
    (h : Check.state ∈ P.checks) :
    (P.checkedAuthUrl C E).get "state" = some E.stateValue := by
  unfold OAuthProvider.checkedAuthUrl
  rw [if_pos h]
  split_ifs <;> simp [Url.get_set_ne, Url.get_set_self, checks.state.create]

theorem checkedAuthUrl_get_pkce (C : Crypto) (E : CheckEntropy) (P : OAuthProvider)
    (h : Check.pkce ∈ P.checks) :
    (P.checkedAuthUrl C E).get "code_challenge" = some (C.s256 E.pkceVerifier)
    ∧ (P.checkedAuthUrl C E).get "code_challenge_method" = some "S256" := by
  simp only [OAuthProvider.checkedAuthUrl, if_pos h]
  constructor <;> split_ifs <;>
    simp [Url.get_set_ne, Url.get_set_self, checks.pkce.create]

theorem checkedAuthUrl_get_nonce (C : Crypto) (E : CheckEntropy) (P : OAuthProvider)
    (h : Check.nonce ∈ P.checks) :
    (P.checkedAuthUrl C E).get "nonce" = some E.nonceValue := by
  unfold OAuthProvider.checkedAuthUrl
  rw [if_pos h]
  simp [Url.get_set_self, checks.nonce.create]

theorem login_redirect_get_ne (C : Crypto) (E : CheckEntropy) (P : OAuthProvider)
    (request : InternalRequest) {k : String} (h : k ≠ "redirect_uri") :
    (redirectUrl (OAuthProvider.login C E P request)).get k = (P.checkedAuthUrl C E).get k := by
  simp only [OAuthProvider.login, redirectUrl, Option.getD]
  split_ifs <;> simp [Url.get_set_ne, h]

theorem finalSteps_get_redirect (u : Url) (v : String) :
    (if (if u.hasP "redirect_uri" then u
          else u.set "redirect_uri" v).hasP "scope"
      then (if u.hasP "redirect_uri" then u else u.set "redirect_uri" v)
      else (if u.hasP "redirect_uri" then u
            else u.set "redirect_uri" v).set "scope" "openid profile email").get "redirect_uri"
    = some ((u.get "redirect_uri").getD v) := by
  by_cases hr : u.hasP "redirect_uri"
  · rw [if_pos hr]
    obtain ⟨x, hx⟩ := Option.isSome_iff_exists.mp (by simpa [Url.hasP] using hr)
    by_cases hs : u.hasP "scope"
    · rw [if_pos hs, hx]
      rfl
    · rw [if_neg hs,
        Url.get_set_ne u (show ("redirect_uri" : String) ≠ "scope" from by decide), hx]
      rfl
  · rw [if_neg hr]
    have hnone : u.get "redirect_uri" = none :=
      Option.not_isSome_iff_eq_none.mp (by simpa [Url.hasP] using hr)
    by_cases hs : (u.set "redirect_uri" v).hasP "scope"
    · rw [if_pos hs, Url.get_set_self, hnone]
      rfl
    · rw [if_neg hs,
        Url.get_set_ne (u.set "redirect_uri" v)
          (show ("redirect_uri" : String) ≠ "scope" from by decide),
        Url.get_set_self, hnone]
      rfl

set_option maxHeartbeats 1000000 in
theorem oidcSignInParams (C : Crypto) (E : CheckEntropy) (Q : OIDCProvider)
    (request : InternalRequest) :
    (OIDCProvider.signInBody C E Q request).2.status = some 302
    ∧ (OIDCProvider.signInBody C E Q request).2.redirect
        = some (OIDCProvider.signInBody C E Q request).1.authorizationUrl
    ∧ (Check.state ∈ Q.checks →
        (OIDCProvider.signInBody C E Q request).1.authorizationUrl.get "state"
            = some E.stateValue
        ∧ (checks.state.create C E Q.ctx).2
            ∈ (OIDCProvider.signInBody C E Q request).2.cookies)
    ∧ (Check.pkce ∈ Q.checks → Q.s256Supported = true →
        (OIDCProvider.signInBody C E Q request).1.authorizationUrl.get "code_challenge"
            = some (C.s256 E.pkceVerifier)
        ∧ (OIDCProvider.signInBody C E Q request).1.authorizationUrl.get "code_challenge_method"
            = some "S256"
        ∧ (checks.pkce.create C E Q.ctx).2
            ∈ (OIDCProvider.signInBody C E Q request).2.cookies)
    ∧ ((Check.nonce ∈ Q.checks ∨ (Check.pkce ∈ Q.checks ∧ Q.s256Supported = false)) →
        (OIDCProvider.signInBody C E Q request).1.authorizationUrl.get "nonce"
            = some E.nonceValue
        ∧ (checks.nonce.create C E Q.ctx).2
            ∈ (OIDCProvider.signInBody C E Q request).2.cookies)
    ∧ (OIDCProvider.signInBody C E Q request).1.authorizationUrl.get "redirect_uri"
        = some ((Q.authorizationUrl.get "redirect_uri").getD
            (request.origin ++ Q.pages.callback)) := by
  refine ⟨rfl, rfl, ?_, ?_, ?_, ?_⟩
  · intro h
    constructor <;>
    · simp only [OIDCProvider.signInBody]
      simp [h]
      split_ifs <;>
        simp_all [Url.get_set_ne, Url.get_set_self, checks.state.create,
          checks.nonce.create, checks.pkce.create, OIDCProvider.ctx]
  · intro h1 h2
    refine ⟨?_, ?_, ?_⟩ <;>
    · simp only [OIDCProvider.signInBody]
      simp [h1, h2]
      split_ifs <;>
        simp_all [Url.get_set_ne, Url.get_set_self, checks.state.create,
          checks.nonce.create, checks.pkce.create, OIDCProvider.ctx]
  · intro h
    rcases h with h | ⟨hp, hs⟩
    · constructor <;>
      · simp only [OIDCProvider.signInBody]
        split_ifs <;>
          simp_all [Url.get_set_ne, Url.get_set_self, checks.state.create,
            checks.nonce.create, checks.pkce.create, OIDCProvider.ctx]
    · constructor <;>
      · simp only [OIDCProvider.signInBody]
        simp [hp, hs]
        split_ifs <;>
          simp_all [Url.get_set_ne, Url.get_set_self, checks.state.create,
            checks.nonce.create, checks.pkce.create, OIDCProvider.ctx]
  · dsimp only [OIDCProvider.signInBody]
    rw [finalSteps_get_redirect]
    split_ifs <;> simp_all [Url.get_set_ne]

/-- C8 counterexample: the claim "the redirect URL contains a parameter for
each enabled check ... and the corresponding check cookies are attached" is
false for `OIDCProvider.signIn` at a concrete initialized provider with
`checks = ['pkce']` whose metadata does not list S256: the pkce check is
enabled, yet the login response carries no `code_challenge` or
`code_challenge_method` parameter and no pkce verifier cookie (only the
fallback nonce cookie). -/
theorem aponia_C8_cex :
    Check.pkce ∈ provPkceNoS256.checks
    ∧ (OIDCProvider.signIn initId cryptoX entropyX provPkceNoS256 reqX).map
        (fun pr => ((redirectUrl pr.2).get "code_challenge",
                    (redirectUrl pr.2).get "code_challenge_method",
                    pr.2.cookies))
      = .ok (none, none, [(checks.nonce.create cryptoX entropyX provPkceNoS256.ctx).2]) := by
  refine ⟨by decide, rfl⟩

/-- C8 amended: for every OAuth2 `login` the claim holds as stated — status
302, redirect URL built from the authorization endpoint, a parameter and a
cookie for each enabled check (`state`, `code_challenge` with
`code_challenge_method=S256`, `nonce`), and `redirect_uri` set to the
provider's callback page unless the authorization URL already carries one.
For every OIDC `signIn` (past the lazy initialization) the same holds with
one qualification forced by the code: the `code_challenge` parameter and
pkce cookie are attached only when the discovered metadata also lists S256;
otherwise the provider falls back to the nonce check, whose parameter and
cookie are attached instead. -/
theorem aponia_C8 (C : Crypto) (E : CheckEntropy) (P : OAuthProvider) (request : InternalRequest)
    (init : OIDCProvider → Except AuthError OIDCProvider) (C2 : Crypto) (E2 : CheckEntropy)
    (Q : OIDCProvider) (request2 : InternalRequest) :
    (OAuthProvider.login C E P request).status = some 302
    ∧ (OAuthProvider.login C E P request).redirect
        = some (redirectUrl (OAuthProvider.login C E P request))
    ∧ (redirectUrl (OAuthProvider.login C E P request)).base = P.authorizationEndpoint.url.base
    ∧ (Check.state ∈ P.checks →
        (redirectUrl (OAuthProvider.login C E P request)).get "state" = some E.stateValue
        ∧ (checks.state.create C E P.ctx).2 ∈ (OAuthProvider.login C E P request).cookies)
    ∧ (Check.pkce ∈ P.checks →
        (redirectUrl (OAuthProvider.login C E P request)).get "code_challenge"
            = some (C.s256 E.pkceVerifier)
        ∧ (redirectUrl (OAuthProvider.login C E P request)).get "code_challenge_method"
            = some "S256"
        ∧ (checks.pkce.create C E P.ctx).2 ∈ (OAuthProvider.login C E P request).cookies)
    ∧ (Check.nonce ∈ P.checks →
        (redirectUrl (OAuthProvider.login C E P request)).get "nonce" = some E.nonceValue
        ∧ (checks.nonce.create C E P.ctx).2 ∈ (OAuthProvider.login C E P request).cookies)
    ∧ (redirectUrl (OAuthProvider.login C E P request)).get "redirect_uri"
        = some ((P.staticAuthUrl.get "redirect_uri").getD
            (request.origin ++ P.pages.callback))
    ∧ (Q.inited = true →
        OIDCProvider.signIn init C2 E2 Q request2
          = .ok (OIDCProvider.signInBody C2 E2 Q request2))
    ∧ (OIDCProvider.signInBody C2 E2 Q request2).2.status = some 302
    ∧ (OIDCProvider.signInBody C2 E2 Q request2).2.redirect
        = some (OIDCProvider.signInBody C2 E2 Q request2).1.authorizationUrl
    ∧ (Check.state ∈ Q.checks →
        (OIDCProvider.signInBody C2 E2 Q request2).1.authorizationUrl.get "state"
            = some E2.stateValue
        ∧ (checks.state.create C2 E2 Q.ctx).2
            ∈ (OIDCProvider.signInBody C2 E2 Q request2).2.cookies)
    ∧ (Check.pkce ∈ Q.checks → Q.s256Supported = true →
        (OIDCProvider.signInBody C2 E2 Q request2).1.authorizationUrl.get "code_challenge"
            = some (C2.s256 E2.pkceVerifier)
        ∧ (OIDCProvider.signInBody C2 E2 Q request2).1.authorizationUrl.get
            "code_challenge_method" = some "S256"
        ∧ (checks.pkce.create C2 E2 Q.ctx).2
            ∈ (OIDCProvider.signInBody C2 E2 Q request2).2.cookies)
    ∧ ((Check.nonce ∈ Q.checks ∨ (Check.pkce ∈ Q.checks ∧ Q.s256Supported = false)) →
        (OIDCProvider.signInBody C2 E2 Q request2).1.authorizationUrl.get "nonce"
            = some E2.nonceValue
        ∧ (checks.nonce.create C2 E2 Q.ctx).2
            ∈ (OIDCProvider.signInBody C2 E2 Q request2).2.cookies)
    ∧ (OIDCProvider.signInBody C2 E2 Q request2).1.authorizationUrl.get "redirect_uri"
        = some ((Q.authorizationUrl.get "redirect_uri").getD
            (request2.origin ++ Q.pages.callback)) := by
  refine ⟨rfl, rfl, ?_, ?_, ?_, ?_, ?_, ?_,
    (oidcSignInParams C2 E2 Q request2).1,
    (oidcSignInParams C2 E2 Q request2).2.1,
    (oidcSignInParams C2 E2 Q request2).2.2.1,
    (oidcSignInParams C2 E2 Q request2).2.2.2.1,
    (oidcSignInParams C2 E2 Q request2).2.2.2.2.1,
    (oidcSignInParams C2 E2 Q request2).2.2.2.2.2⟩
  · simp only [OAuthProvider.login, redirectUrl, Option.getD]
    split_ifs <;> simp [checkedAuthUrl_base]
  · intro h
    refine ⟨?_, ?_⟩
    · rw [login_redirect_get_ne C E P request (by decide)]
      exact checkedAuthUrl_get_state C E P h
    · show (checks.state.create C E P.ctx).2 ∈ P.checkCookies C E
      unfold OAuthProvider.checkCookies
      rw [if_pos h]
      simp
  · intro h
    refine ⟨?_, ?_, ?_⟩
    · rw [login_redirect_get_ne C E P request (by decide)]
      exact (checkedAuthUrl_get_pkce C E P h).1
    · rw [login_redirect_get_ne C E P request (by decide)]
      exact (checkedAuthUrl_get_pkce C E P h).2
    · show (checks.pkce.create C E P.ctx).2 ∈ P.checkCookies C E
      unfold OAuthProvider.checkCookies
      rw [if_pos h]
      simp
  · intro h
    refine ⟨?_, ?_⟩
    · rw [login_redirect_get_ne C E P request (by decide)]
      exact checkedAuthUrl_get_nonce C E P h
    · show (checks.nonce.create C E P.ctx).2 ∈ P.checkCookies C E
      unfold OAuthProvider.checkCookies
      rw [if_pos h]
      simp
  · have hother : (P.checkedAuthUrl C E).get "redirect_uri" = P.staticAuthUrl.get "redirect_uri" :=
      checkedAuthUrl_get_other C E P (by decide) (by decide) (by decide) (by decide)
    simp only [OAuthProvider.login, redirectUrl, Option.getD]
    by_cases hr : (P.checkedAuthUrl C E).hasP "redirect_uri"
    · rw [if_pos hr]
      unfold Url.hasP at hr
      rw [hother] at hr
      obtain ⟨x, hx⟩ := Option.isSome_iff_exists.mp hr
      rw [hother, hx]
    · rw [if_neg hr]
      rw [Url.get_set_self]
      unfold Url.hasP at hr
      rw [hother] at hr
      have hnone : P.staticAuthUrl.get "redirect_uri" = none :=
        Option.not_isSome_iff_eq_none.mp (by simpa using hr)
      rw [hnone]
  · intro h
    unfold OIDCProvider.signIn
    rw [h]
    rfl

/-- C8 witness: the amended theorem applied at a concrete OAuth provider
with all three checks enabled and no preset `redirect_uri`, at a concrete
initialized OIDC provider with the state and nonce checks, and at a
concrete initialized OIDC provider with the pkce check and S256 support. -/
theorem aponia_C8_witness :
    (OAuthProvider.login cryptoX entropyX provOAuthX reqX).status = some 302
    ∧ (redirectUrl (OAuthProvider.login cryptoX entropyX provOAuthX reqX)).base
        = "https://github.example/authorize"
    ∧ (redirectUrl (OAuthProvider.login cryptoX entropyX provOAuthX reqX)).get "state"
        = some "sv"
    ∧ (redirectUrl (OAuthProvider.login cryptoX entropyX provOAuthX reqX)).get "code_challenge"
        = some "Spv"
    ∧ (redirectUrl (OAuthProvider.login cryptoX entropyX provOAuthX reqX)).get
        "code_challenge_method" = some "S256"
    ∧ (redirectUrl (OAuthProvider.login cryptoX entropyX provOAuthX reqX)).get "nonce"
        = some "nv"
    ∧ (redirectUrl (OAuthProvider.login cryptoX entropyX provOAuthX reqX)).get "redirect_uri"
        = some "https://app.example/auth/callback/github"
    ∧ (checks.state.create cryptoX entropyX provOAuthX.ctx).2
        ∈ (OAuthProvider.login cryptoX entropyX provOAuthX reqX).cookies
    ∧ OIDCProvider.signIn initId cryptoX entropyX provOIDCState reqX
        = .ok (OIDCProvider.signInBody cryptoX entropyX provOIDCState reqX)
    ∧ (OIDCProvider.signInBody cryptoX entropyX provOIDCState reqX).2.status = some 302
    ∧ (OIDCProvider.signInBody cryptoX entropyX provOIDCState reqX).1.authorizationUrl.get
        "state" = some "sv"
    ∧ (OIDCProvider.signInBody cryptoX entropyX provOIDCState reqX).1.authorizationUrl.get
        "nonce" = some "nv"
    ∧ (OIDCProvider.signInBody cryptoX entropyX provOIDCState reqX).1.authorizationUrl.get
        "redirect_uri" = some "https://app.example/auth/callback/google"
    ∧ (OIDCProvider.signInBody cryptoX entropyX provOIDCPkce reqX).1.authorizationUrl.get
        "code_challenge" = some "Spv"
    ∧ (OIDCProvider.signInBody cryptoX entropyX provOIDCPkce reqX).1.authorizationUrl.get
        "code_challenge_method" = some "S256"
    ∧ (checks.pkce.create cryptoX entropyX provOIDCPkce.ctx).2
        ∈ (OIDCProvider.signInBody cryptoX entropyX provOIDCPkce reqX).2.cookies := by
  obtain ⟨ho1, ho2, ho3, ho4, ho5, ho6, ho7, hi, hs1, hs2, hs3, hs4, hs5, hs6⟩ :=
    aponia_C8 cryptoX entropyX provOAuthX reqX initId cryptoX entropyX provOIDCState reqX
  obtain ⟨_, _, _, _, _, _, _, _, _, _, _, hp4, _, _⟩ :=
    aponia_C8 cryptoX entropyX provOAuthX reqX initId cryptoX entropyX provOIDCPkce reqX
  exact ⟨ho1, ho3, (ho4 (by decide)).1, (ho5 (by decide)).1, (ho5 (by decide)).2.1,
    (ho6 (by decide)).1, ho7, (ho4 (by decide)).2,
    hi rfl, hs1, (hs3 (by decide)).1, (hs5 (Or.inl (by decide))).1, hs6,
    (hp4 (by decide) rfl).1, (hp4 (by decide) rfl).2.1, (hp4 (by decide) rfl).2.2⟩

/-- C6 counterexample: the claim "all provider state observable after
construction is unchanged by every subsequent login ... two consecutive
login requests observe identical provider configuration (including the
enabled-checks list and the authorization URL template)" is false at a
concrete initialized OIDC provider with `checks = ['pkce']` whose metadata
does not list S256: one `signIn` rewrites the provider's checks list to
`['nonce']` and bakes the login's query parameters into the provider's
shared authorization-URL object. -/
theorem aponia_C6_cex :
    (OIDCProvider.signIn initId cryptoX entropyX provPkceNoS256 reqX).map
        (fun pr => (pr.1.checks, pr.1.authorizationUrl))
      = .ok ([Check.nonce],
          ⟨"https://as.example/authorize",
            [("response_type", "code"), ("client_id", "cid"), ("nonce", "nv"),
             ("redirect_uri", "https://app.example/auth/callback/google"),
             ("scope", "openid profile email")]⟩)
    ∧ provPkceNoS256.checks = [Check.pkce]
    ∧ provPkceNoS256.authorizationUrl
        = ⟨"https://as.example/authorize",
            [("response_type", "code"), ("client_id", "cid")]⟩ := by
  refine ⟨rfl, rfl, rfl⟩

/-- C6 amended: provider state observable after construction is unchanged
by every login and callback operation, with exactly the exceptions the
source forces.  OAuth2 providers are fully unchanged by `login` (which
copies the endpoint URL) and by `callback` (no provider-state writes); an
initialized OIDC provider is unchanged by `callback` (whose only state
write is the lazy initialization); but OIDC `signIn` changes exactly two
observable pieces of provider state — it persists the login-specific
authorization URL (the very URL it returns as the redirect, including the
check, `redirect_uri` and `scope` parameters) into the provider's shared
URL object, and, when PKCE is enabled but S256 unsupported, it rewrites the
enabled-checks list to `['nonce']`; every other provider field is
unchanged.  Hence two consecutive OIDC logins need not observe identical
configuration, while OAuth2 logins always do. -/
theorem aponia_C6 (init : OIDCProvider → Except AuthError OIDCProvider)
    (C : Crypto) (E : CheckEntropy) (P : OIDCProvider) (request : InternalRequest)
    (h0 : P.inited = true) :
    OIDCProvider.signIn init C E P request
        = .ok (OIDCProvider.signInBody C E P request)
    ∧ (OIDCProvider.signInBody C E P request).2.redirect
        = some (OIDCProvider.signInBody C E P request).1.authorizationUrl
    ∧ (OIDCProvider.signInBody C E P request).1.inited = P.inited
    ∧ (OIDCProvider.signInBody C E P request).1.checks
        = (if Check.pkce ∈ P.checks ∧ P.s256Supported = false
            then [Check.nonce] else P.checks)
    ∧ (OIDCProvider.signInBody C E P request).1.secret = P.secret
    ∧ (OIDCProvider.signInBody C E P request).1.stateCookieName = P.stateCookieName
    ∧ (OIDCProvider.signInBody C E P request).1.pkceCookieName = P.pkceCookieName
    ∧ (OIDCProvider.signInBody C E P request).1.nonceCookieName = P.nonceCookieName
    ∧ (OIDCProvider.signInBody C E P request).1.pages = P.pages
    ∧ (OIDCProvider.signInBody C E P request).1.authServer = P.authServer
    ∧ (OIDCProvider.signInBody C E P request).1.tokenUrl = P.tokenUrl
    ∧ (∀ (C3 : Crypto) (E3 : CheckEntropy) (R : OAuthProvider) (req3 : InternalRequest),
        (OAuthProvider.loginS C3 E3 R req3).1 = R)
    ∧ (∀ (C3 : Crypto) (O3 : OAuthOracles) (R : OAuthProvider) (req3 : InternalRequest),
        (OAuthProvider.callbackS C3 O3 R req3).1 = R)
    ∧ (∀ (init3 : OIDCProvider → Except AuthError OIDCProvider) (C3 : Crypto)
        (O3 : OIDCOracles) (R : OIDCProvider) (req3 : InternalRequest),
        R.inited = true →
        (OIDCProvider.callbackS init3 C3 O3 R req3).1 = .ok R) := by
  refine ⟨?_, rfl, ?_, ?_, ?_, ?_, ?_, ?_, ?_, ?_, ?_,
    fun _ _ _ _ => rfl, fun _ _ _ _ => rfl,
    fun init3 C3 O3 R req3 hR => by simp [OIDCProvider.callbackS, hR]⟩
  · unfold OIDCProvider.signIn
    rw [h0]
    rfl
  all_goals
    simp only [OIDCProvider.signInBody]
    by_cases hpk : Check.pkce ∈ P.checks <;> by_cases hs : P.s256Supported <;>
      simp [hpk, hs]

/-- C6 witness: the amended theorem applied at a concrete initialized OIDC
provider (state and nonce checks, S256 supported), with the login/callback
immutability conjuncts instantiated at concrete providers and requests. -/
theorem aponia_C6_witness :
    OIDCProvider.signIn initId cryptoX entropyX provOIDCState reqX
        = .ok (OIDCProvider.signInBody cryptoX entropyX provOIDCState reqX)
    ∧ (OIDCProvider.signInBody cryptoX entropyX provOIDCState reqX).1.pages
        = provOIDCState.pages
    ∧ (OIDCProvider.signInBody cryptoX entropyX provOIDCState reqX).1.checks
        = (if Check.pkce ∈ provOIDCState.checks ∧ provOIDCState.s256Supported = false
            then [Check.nonce] else provOIDCState.checks)
    ∧ (OAuthProvider.loginS cryptoX entropyX provOAuthX reqX).1 = provOAuthX
    ∧ (OAuthProvider.callbackS cryptoX oauthOraclesX provOAuthState reqStateMismatch).1
        = provOAuthState
    ∧ (OIDCProvider.callbackS initId cryptoX oidcOraclesX provOIDCState reqX).1
        = .ok provOIDCState := by
  obtain ⟨h1, h2, h3, h4, h5, h6, h7, h8, h9, h10, h11, h12, h13, h14⟩ :=
    aponia_C6 initId cryptoX entropyX provOIDCState reqX rfl
  exact ⟨h1, h9, h4, h12 cryptoX entropyX provOAuthX reqX,
    h13 cryptoX oauthOraclesX provOAuthState reqStateMismatch,
    h14 initId cryptoX oidcOraclesX provOIDCState reqX rfl⟩

/-- C7: for an initialized OIDC provider with the pkce check enabled whose
discovered metadata does not list S256, `signIn` attaches neither a
`code_challenge`/`code_challenge_method` parameter nor a PKCE verifier
cookie; it rewrites the provider's checks to exactly `['nonce']`, attaches
the nonce parameter, and the response's cookies are exactly the state
cookie (when enabled) followed by the nonce cookie. -/
theorem aponia_C7 (init : OIDCProvider → Except AuthError OIDCProvider)
    (C : Crypto) (E : CheckEntropy) (P : OIDCProvider) (request : InternalRequest)
    (h0 : P.inited = true) (h1 : Check.pkce ∈ P.checks) (h2 : P.s256Supported = false) :
    OIDCProvider.signIn init C E P request = .ok (OIDCProvider.signInBody C E P request)
    ∧ (OIDCProvider.signInBody C E P request).1.checks = [Check.nonce]
    ∧ (OIDCProvider.signInBody C E P request).2.redirect
        = some (OIDCProvider.signInBody C E P request).1.authorizationUrl
    ∧ (OIDCProvider.signInBody C E P request).1.authorizationUrl.get "code_challenge"
        = P.authorizationUrl.get "code_challenge"
    ∧ (OIDCProvider.signInBody C E P request).1.authorizationUrl.get "code_challenge_method"
        = P.authorizationUrl.get "code_challenge_method"
    ∧ (OIDCProvider.signInBody C E P request).1.authorizationUrl.get "nonce"
        = some E.nonceValue
    ∧ (OIDCProvider.signInBody C E P request).2.cookies
        = (if Check.state ∈ P.checks then [(checks.state.create C E P.ctx).2] else [])
          ++ [(checks.nonce.create C E P.ctx).2] := by
  refine ⟨?_, ?_, rfl, ?_, ?_, ?_, ?_⟩
  · unfold OIDCProvider.signIn
    rw [h0]
    rfl
  · simp only [OIDCProvider.signInBody]
    simp [h1, h2]
  · simp only [OIDCProvider.signInBody]
    simp [h1, h2]
    split_ifs <;> simp [Url.get_set_ne]
  · simp only [OIDCProvider.signInBody]
    simp [h1, h2]
    split_ifs <;> simp [Url.get_set_ne]
  · simp only [OIDCProvider.signInBody]
    simp [h1, h2]
    split_ifs <;>
      simp [Url.get_set_ne, Url.get_set_self, checks.nonce.create, OIDCProvider.ctx]
  · simp only [OIDCProvider.signInBody]
    simp [h1, h2]
    split_ifs <;>
      simp [checks.state.create, checks.nonce.create, OIDCProvider.ctx]

/-- C7 witness: the theorem applied at a concrete initialized provider with
`checks = ['pkce']` and no S256 support. -/
theorem aponia_C7_witness :
    OIDCProvider.signIn initId cryptoX entropyX provPkceNoS256 reqX
        = .ok (OIDCProvider.signInBody cryptoX entropyX provPkceNoS256 reqX)
    ∧ (OIDCProvider.signInBody cryptoX entropyX provPkceNoS256 reqX).1.checks = [Check.nonce]
    ∧ (OIDCProvider.signInBody cryptoX entropyX provPkceNoS256 reqX).1.authorizationUrl.get
        "code_challenge" = none
    ∧ (OIDCProvider.signInBody cryptoX entropyX provPkceNoS256 reqX).1.authorizationUrl.get
        "nonce" = some "nv"
    ∧ (OIDCProvider.signInBody cryptoX entropyX provPkceNoS256 reqX).2.cookies
        = [(checks.nonce.create cryptoX entropyX provPkceNoS256.ctx).2] := by
  have h := aponia_C7 initId cryptoX entropyX provPkceNoS256 reqX rfl (by decide) rfl
  refine ⟨h.1, h.2.1, ?_, h.2.2.2.2.2.1, ?_⟩
  · exact h.2.2.2.1.trans (by rfl)
  · exact h.2.2.2.2.2.2.trans (by rfl)

theorem oauthCallbackStateFail (C : Crypto) (O : OAuthOracles) (P : OAuthProvider)
    (request : InternalRequest) (hP : Check.state ∈ P.checks)
    (hfail : stateCheckFailsB C P.ctx request = true) :
    (∃ e, (OAuthProvider.callback C O P request).1 = .error e)
    ∧ (OAuthProvider.callback C O P request).2.head? = some Ev.stateUsed
    ∧ Ev.tokenExchanged ∉ (OAuthProvider.callback C O P request).2
    ∧ (∀ raw v, lookupStr request.cookies P.stateCookieName = some raw →
        C.decodeToken P.secret raw = some v →
        Ev.stateClearCollected ∈ (OAuthProvider.callback C O P request).2) := by
  unfold OAuthProvider.callback
  cases hcook : lookupStr request.cookies P.stateCookieName with
  | none =>
    have hsu : checks.state.use C P.ctx request = .error .validationState := by
      simp only [checks.state.use, OAuthProvider.ctx, hcook]
      rw [if_pos hP]
    rw [hsu]
    refine ⟨⟨_, rfl⟩, rfl, ?_, ?_⟩
    · show Ev.tokenExchanged ∉ [Ev.stateUsed]
      decide
    · intro raw v hraw _
      exact Option.noConfusion hraw
  | some raw0 =>
    cases hdec : C.decodeToken P.secret raw0 with
    | none =>
      have hsu : checks.state.use C P.ctx request = .error .validationState := by
        simp only [checks.state.use, OAuthProvider.ctx, hcook, hdec]
        rw [if_pos hP]
      rw [hsu]
      refine ⟨⟨_, rfl⟩, rfl, ?_, ?_⟩
      · show Ev.tokenExchanged ∉ [Ev.stateUsed]
        decide
      · intro raw v hraw hv
        injection hraw with hraw2
        subst hraw2
        rw [hdec] at hv
        exact Option.noConfusion hv
    | some v0 =>
      have hsu : checks.state.use C P.ctx request
          = .ok (some v0, some (clearingCookie P.stateCookieName)) := by
        simp only [checks.state.use, OAuthProvider.ctx, hcook, hdec]
        rw [if_pos hP]
      simp only [hsu]
      have hq : lookupStr request.query "state" ≠ some v0 := by
        simp only [stateCheckFailsB, OAuthProvider.ctx, hcook, hdec] at hfail
        simpa using hfail
      cases herr : lookupStr request.query "error" with
      | some d =>
        have hva : validateAuthResponse (some v0) request.query = .error (.oauthError d) := by
          unfold validateAuthResponse
          rw [herr]
        simp only [hva]
        refine ⟨⟨_, rfl⟩, rfl, ?_, ?_⟩
        · show Ev.tokenExchanged ∉ [Ev.stateUsed, Ev.stateClearCollected]
          decide
        · intro raw v hraw hv
          show Ev.stateClearCollected ∈ [Ev.stateUsed, Ev.stateClearCollected]
          decide
      | none =>
        have hva : validateAuthResponse (some v0) request.query = .error .stateMismatchErr := by
          unfold validateAuthResponse
          rw [herr, if_neg hq]
        simp only [hva]
        refine ⟨⟨_, rfl⟩, rfl, ?_, ?_⟩
        · show Ev.tokenExchanged ∉ [Ev.stateUsed, Ev.stateClearCollected]
          decide
        · intro raw v hraw hv
          show Ev.stateClearCollected ∈ [Ev.stateUsed, Ev.stateClearCollected]
          decide

theorem oidcCallbackStateFail (init : OIDCProvider → Except AuthError OIDCProvider)
    (C : Crypto) (O : OIDCOracles) (Q : OIDCProvider)
    (request : InternalRequest) (hinit : Q.inited = true) (hQ : Check.state ∈ Q.checks)
    (hfail : stateCheckFailsB C Q.ctx request = true) :
    (∃ e, (OIDCProvider.callback init C O Q request).1 = .error e)
    ∧ (OIDCProvider.callback init C O Q request).2.head? = some Ev.stateUsed
    ∧ Ev.tokenExchanged ∉ (OIDCProvider.callback init C O Q request).2
    ∧ (∀ raw v, lookupStr request.cookies Q.stateCookieName = some raw →
        C.decodeToken Q.secret raw = some v →
        Ev.stateClearCollected ∈ (OIDCProvider.callback init C O Q request).2) := by
  have hred : OIDCProvider.callback init C O Q request
      = OIDCProvider.callbackBody C O Q request := by
    unfold OIDCProvider.callback
    rw [hinit]
    rfl
  rw [hred]
  unfold OIDCProvider.callbackBody
  cases hcook : lookupStr request.cookies Q.stateCookieName with
  | none =>
    have hsu : checks.state.use C Q.ctx request = .error .validationState := by
      simp only [checks.state.use, OIDCProvider.ctx, hcook]
      rw [if_pos hQ]
    rw [hsu]
    refine ⟨⟨_, rfl⟩, rfl, ?_, ?_⟩
    · show Ev.tokenExchanged ∉ [Ev.stateUsed]
      decide
    · intro raw v hraw _
      exact Option.noConfusion hraw
  | some raw0 =>
    cases hdec : C.decodeToken Q.secret raw0 with
    | none =>
      have hsu : checks.state.use C Q.ctx request = .error .validationState := by
        simp only [checks.state.use, OIDCProvider.ctx, hcook, hdec]
        rw [if_pos hQ]
      rw [hsu]
      refine ⟨⟨_, rfl⟩, rfl, ?_, ?_⟩
      · show Ev.tokenExchanged ∉ [Ev.stateUsed]
        decide
      · intro raw v hraw hv
        injection hraw with hraw2
        subst hraw2
        rw [hdec] at hv
        exact Option.noConfusion hv
    | some v0 =>
      have hsu : checks.state.use C Q.ctx request
          = .ok (some v0, some (clearingCookie Q.stateCookieName)) := by
        simp only [checks.state.use, OIDCProvider.ctx, hcook, hdec]
        rw [if_pos hQ]
      simp only [hsu]
      have hq : lookupStr request.query "state" ≠ some v0 := by
        simp only [stateCheckFailsB, OIDCProvider.ctx, hcook, hdec] at hfail
        simpa using hfail
      cases herr : lookupStr request.query "error" with
      | some d =>
        have hva : validateAuthResponse (some v0) request.query = .error (.oauthError d) := by
          unfold validateAuthResponse
          rw [herr]
        simp only [hva]
        refine ⟨⟨_, rfl⟩, rfl, ?_, ?_⟩
        · show Ev.tokenExchanged ∉ [Ev.stateUsed, Ev.stateClearCollected]
          decide
        · intro raw v hraw hv
          show Ev.stateClearCollected ∈ [Ev.stateUsed, Ev.stateClearCollected]
          decide
      | none =>
        have hva : validateAuthResponse (some v0) request.query = .error .stateMismatchErr := by
          unfold validateAuthResponse
          rw [herr, if_neg hq]
        simp only [hva]
        refine ⟨⟨_, rfl⟩, rfl, ?_, ?_⟩
        · show Ev.tokenExchanged ∉ [Ev.stateUsed, Ev.stateClearCollected]
          decide
        · intro raw v hraw hv
          show Ev.stateClearCollected ∈ [Ev.stateUsed, Ev.stateClearCollected]
          decide

/-- C1: for every OAuth2 or OIDC callback with the state check enabled (and,
for OIDC, an initialized provider), the state check runs first (the trace
starts with the state-cookie read, and whenever the cookie is present and
decodes, a clearing cookie is collected); and when the state cookie is
missing, fails to decode, or its decoded value differs from the `state`
query parameter, the callback throws an error, the token-exchange request
is never made, and no session is created (there is no successful
response). -/
theorem aponia_C1 (C : Crypto) (O : OAuthOracles) (P : OAuthProvider)
    (request : InternalRequest)
    (init : OIDCProvider → Except AuthError OIDCProvider) (O2 : OIDCOracles)
    (Q : OIDCProvider) (request2 : InternalRequest)
    (hP : Check.state ∈ P.checks) (hfailP : stateCheckFailsB C P.ctx request = true)
    (hQ0 : Q.inited = true) (hQ : Check.state ∈ Q.checks)
    (hfailQ : stateCheckFailsB C Q.ctx request2 = true) :
    ((∃ e, (OAuthProvider.callback C O P request).1 = .error e)
      ∧ (OAuthProvider.callback C O P request).2.head? = some Ev.stateUsed
      ∧ Ev.tokenExchanged ∉ (OAuthProvider.callback C O P request).2
      ∧ (∀ raw v, lookupStr request.cookies P.stateCookieName = some raw →
          C.decodeToken P.secret raw = some v →
          Ev.stateClearCollected ∈ (OAuthProvider.callback C O P request).2))
    ∧ ((∃ e, (OIDCProvider.callback init C O2 Q request2).1 = .error e)
      ∧ (OIDCProvider.callback init C O2 Q request2).2.head? = some Ev.stateUsed
      ∧ Ev.tokenExchanged ∉ (OIDCProvider.callback init C O2 Q request2).2
      ∧ (∀ raw v, lookupStr request2.cookies Q.stateCookieName = some raw →
          C.decodeToken Q.secret raw = some v →
          Ev.stateClearCollected ∈ (OIDCProvider.callback init C O2 Q request2).2)) :=
  ⟨oauthCallbackStateFail C O P request hP hfailP,
   oidcCallbackStateFail init C O2 Q request2 hQ0 hQ hfailQ⟩

/-- C1 witness: the theorem applied at a concrete OAuth callback whose state
cookie decodes to a value differing from the `state` query parameter, and a
concrete initialized OIDC callback with no state cookie at all. -/
theorem aponia_C1_witness :
    (∃ e, (OAuthProvider.callback cryptoX oauthOraclesX provOAuthState reqStateMismatch).1
        = .error e)
    ∧ (OAuthProvider.callback cryptoX oauthOraclesX provOAuthState reqStateMismatch).2.head?
        = some Ev.stateUsed
    ∧ Ev.tokenExchanged
        ∉ (OAuthProvider.callback cryptoX oauthOraclesX provOAuthState reqStateMismatch).2
    ∧ (∃ e, (OIDCProvider.callback initId cryptoX oidcOraclesX provOIDCState reqX).1
        = .error e)
    ∧ (OIDCProvider.callback initId cryptoX oidcOraclesX provOIDCState reqX).2.head?
        = some Ev.stateUsed
    ∧ Ev.tokenExchanged
        ∉ (OIDCProvider.callback initId cryptoX oidcOraclesX provOIDCState reqX).2 := by
  have h := aponia_C1 cryptoX oauthOraclesX provOAuthState reqStateMismatch
    initId oidcOraclesX provOIDCState reqX (by decide) (by decide) rfl (by decide) (by decide)
  exact ⟨h.1.1, h.1.2.1, h.1.2.2.1, h.2.1, h.2.2.1, h.2.2.2.1⟩
